import Mathlib

/-!
# Login throttling and credential verification

A shallow embedding of `authentication-controller.js` (`login`, the
`setInterval` sweep) and `authentication-service.js`
(`checkLoginCredentials`).

Modelling decisions:

* Each module owns a `failedLoginAttempts` object, created as a plain `{}`.
  Its own properties are an insertion-ordered list; a read of a key without
  an own property falls through to `Object.prototype`, whose property names
  are `inheritedNames`.  The values the code stores are the results of
  `(x || 0) + 1`: a natural number, or, when `x` is an inherited value or a
  string made from one, a string (`Stored.text`).
* `authenticationRepository.getUserByEmail`, `passwordMatched` and
  `generateToken` live outside the two modules; they are parameters
  (`Collaborators`).  A rejected lookup is `Except.error`.
* In `login` and `checkLoginCredentials`, `await` is sequential composition:
  one call runs to completion.  Requests in flight together are modelled
  separately (`advance`, `stepAt`, `runSchedule`): a request is cut at its
  `await`s into uninterrupted blocks, and `advance_four` relates the two.
* Every call made to a collaborator is logged, in order, in `calls`.
-/

namespace Auth

/-! ## Data -/

/-- The two error kinds of `errorTypes` that the modules use. -/
inductive errorTypes where
  | FORBIDDEN
  | INVALID_CREDENTIALS
  deriving DecidableEq, Repr

/-- A thrown value: either `errorResponder(type, message)` or an error raised
by a collaborator (the store). -/
inductive Thrown where
  | errorResponder (type : errorTypes) (message : String)
  | fault (description : String)
  deriving DecidableEq, Repr

/-- The user document returned by the store. -/
structure User where
  id : String
  name : String
  email : String
  password : String
  deriving DecidableEq, Repr

/-- The object literal returned by `checkLoginCredentials` on success. -/
structure LoginPayload where
  email : String
  name : String
  user_id : String
  token : String
  deriving DecidableEq, Repr

/-- The functions the two modules import. -/
structure Collaborators where
  getUserByEmail : String → Except Thrown (Option User)
  passwordMatched : String → String → Bool
  generateToken : String → String → String

/-- A call made to a collaborator (or from the controller to the service). -/
inductive Call where
  | checkLoginCredentials (email password : String)
  | getUserByEmail (email : String)
  | passwordMatched (password hashed : String)
  | generateToken (email id : String)
  deriving DecidableEq, Repr

/-! ## The `failedLoginAttempts` objects -/

/-- A primitive the code stores under a key: the value of `(x || 0) + 1`. -/
inductive Stored where
  /-- A number. -/
  | number (n : Nat)
  /-- The string `String(v)` for the value `v` that `Object.prototype` holds
  under `name`, followed by `ones` characters `1`.  It is not empty and does
  not convert to a number. -/
  | text (name : String) (ones : Nat)
  deriving DecidableEq, Repr

/-- A `failedLoginAttempts` object: own properties in insertion order. -/
abbrev AttemptMap := List (String × Stored)

/-- The property names every plain object inherits from `Object.prototype`.
All of them hold a function, except `__proto__`, an accessor whose getter
returns `Object.prototype` itself. -/
def inheritedNames : List String :=
  ["constructor", "__proto__", "hasOwnProperty", "isPrototypeOf", "propertyIsEnumerable",
   "toLocaleString", "toString", "valueOf", "__defineGetter__", "__defineSetter__",
   "__lookupGetter__", "__lookupSetter__"]

/-- The result of a property read `obj[key]`. -/
inductive Read where
  /-- No own property and no inherited one. -/
  | undefined
  /-- The value of the own property. -/
  | own (value : Stored)
  /-- No own property; the object `Object.prototype` holds under `name`. -/
  | inherited (name : String)
  deriving DecidableEq, Repr

/-- The own property under a key, if there is one. -/
def AttemptMap.own : AttemptMap → String → Option Stored
  | [], _ => none
  | (k, v) :: rest, key => if k = key then some v else AttemptMap.own rest key

/-- Property read `obj[key]`: the own property, else the inherited one, else
`undefined`. -/
def AttemptMap.get (m : AttemptMap) (key : String) : Read :=
  match m.own key with
  | some v => Read.own v
  | none => if key ∈ inheritedNames then Read.inherited key else Read.undefined

/-- Property write `obj[key] = v` of a primitive: overwrite the own property
in place, or create it at the end.  Without an own property, a write to
`__proto__` reaches the inherited setter, which ignores primitives. -/
def AttemptMap.set : AttemptMap → String → Stored → AttemptMap
  | [], key, v => if key = "__proto__" then [] else [(key, v)]
  | (k, w) :: rest, key, v =>
    if k = key then (k, v) :: rest else (k, w) :: AttemptMap.set rest key v

/-- Property removal `delete obj[key]`: own properties only. -/
def AttemptMap.delete : AttemptMap → String → AttemptMap
  | [], _ => []
  | (k, w) :: rest, key =>
    if k = key then AttemptMap.delete rest key else (k, w) :: AttemptMap.delete rest key

/-- The keys `Object.keys(obj)`. -/
def AttemptMap.keys (m : AttemptMap) : List String := m.map Prod.fst

/-- The expression `(x || 0) + 1` for `x` a property read.  `undefined` and
`0` are falsy and give `0 + 1`; a number `n` gives `n + 1`; an inherited
object, or a string, is truthy and `+ 1` appends the character `1` to its
string form. -/
def orZeroPlusOne : Read → Stored
  | Read.undefined => Stored.number 1
  | Read.own (Stored.number 0) => Stored.number 1
  | Read.own (Stored.number n) => Stored.number (n + 1)
  | Read.own (Stored.text name ones) => Stored.text name (ones + 1)
  | Read.inherited name => Stored.text name 1

/-- The expression `x >= 5` for `x` a property read: `undefined`, an inherited
object and the strings of `Stored.text` convert to `NaN`, and every
comparison with `NaN` is false. -/
def geFive : Read → Bool
  | Read.own (Stored.number n) => decide (5 ≤ n)
  | _ => false

/-- The FORBIDDEN error both modules throw. -/
def tooManyAttempts : Thrown :=
  Thrown.errorResponder errorTypes.FORBIDDEN
    "Too many failed login attempts. Please try again later."

/-- The INVALID_CREDENTIALS error the controller throws. -/
def invalidCredentials : Thrown :=
  Thrown.errorResponder errorTypes.INVALID_CREDENTIALS "Wrong email or password"

/-! ## authentication-service.js -/

/-- What one run of `checkLoginCredentials` leaves behind. -/
structure CheckResult where
  /-- The returned value (`none` is `null`) or the thrown value. -/
  result : Except Thrown (Option LoginPayload)
  /-- The service's `failedLoginAttempts` afterwards. -/
  attempts : AttemptMap
  /-- The collaborator calls made, in order. -/
  calls : List Call

/-- The function `checkLoginCredentials(email, password)`. -/
def checkLoginCredentials (c : Collaborators) (failedLoginAttempts : AttemptMap)
    (email password : String) : CheckResult :=
  match c.getUserByEmail email with
  | Except.error e =>
    { result := Except.error e
      attempts := failedLoginAttempts
      calls := [Call.getUserByEmail email] }
  | Except.ok user =>
    let userPassword :=
      match user with
      | some u => u.password
      | none => "<RANDOM_PASSWORD_FILLER>"
    let passwordChecked := c.passwordMatched password userPassword
    match user, passwordChecked with
    | some u, true =>
      { result := Except.ok (some
          { email := u.email
            name := u.name
            user_id := u.id
            token := c.generateToken u.email u.id })
        attempts := failedLoginAttempts.delete email
        calls := [Call.getUserByEmail email,
                  Call.passwordMatched password userPassword,
                  Call.generateToken u.email u.id] }
    | _, _ =>
      let attempts := failedLoginAttempts.set email (orZeroPlusOne (failedLoginAttempts.get email))
      if geFive (attempts.get email) then
        { result := Except.error tooManyAttempts
          attempts := attempts
          calls := [Call.getUserByEmail email,
                    Call.passwordMatched password userPassword] }
      else
        { result := Except.ok none
          attempts := attempts
          calls := [Call.getUserByEmail email,
                    Call.passwordMatched password userPassword] }

/-! ## authentication-controller.js -/

/-- The two module-level objects. -/
structure State where
  /-- The object `failedLoginAttempts` of the controller module. -/
  controller : AttemptMap
  /-- The object `failedLoginAttempts` of the service module. -/
  service : AttemptMap
  deriving DecidableEq, Repr

/-- What the handler does with the request. -/
inductive Response where
  | json200 (payload : LoginPayload)
  | next (error : Thrown)
  deriving DecidableEq, Repr

/-- What one run of `login` leaves behind. -/
structure LoginResult where
  response : Response
  state : State
  calls : List Call

/-- The handler `login(request, response, next)` with
`request.body = { email, password }`. -/
def login (c : Collaborators) (st : State) (email password : String) : LoginResult :=
  if geFive (st.controller.get email) then
    { response := Response.next tooManyAttempts, state := st, calls := [] }
  else
    let r := checkLoginCredentials c st.service email password
    let calls := Call.checkLoginCredentials email password :: r.calls
    match r.result with
    | Except.error e =>
      { response := Response.next e
        state := { controller := st.controller, service := r.attempts }
        calls := calls }
    | Except.ok none =>
      { response := Response.next invalidCredentials
        state :=
          { controller := st.controller.set email (orZeroPlusOne (st.controller.get email))
            service := r.attempts }
        calls := calls }
    | Except.ok (some loginSuccess) =>
      { response := Response.json200 loginSuccess
        state := { controller := st.controller.delete email, service := r.attempts }
        calls := calls }

/-- The result of reading `.lastAttempt` on what a key holds.  The stored
values are number and string primitives, and the inherited values are
functions or `Object.prototype`; none has such a property: the read is
`undefined`. -/
def lastAttempt (_held : Read) : Option Nat := none

/-- A number produced by arithmetic: a finite value or `NaN`. -/
inductive JsNumber where
  | finite (value : Int)
  | NaN
  deriving DecidableEq, Repr

/-- The expression `currentTime - x`: `undefined` converts to `NaN`. -/
def minus (currentTime : Nat) : Option Nat → JsNumber
  | none => JsNumber.NaN
  | some t => JsNumber.finite ((currentTime : Int) - (t : Int))

/-- The expression `x >= bound`: false when `x` is `NaN`. -/
def JsNumber.ge : JsNumber → Int → Bool
  | JsNumber.NaN, _ => false
  | JsNumber.finite v, bound => decide (bound ≤ v)

/-- The body of the `forEach` callback of the sweep, for one key.  The keys
come from `Object.keys` of the same object and a callback removes its own key
only, so the own property is there when the callback reads it; the read of a
key that holds nothing would throw and end the callback. -/
def sweepStep (currentTime : Nat) (failedLoginAttempts : AttemptMap) (email : String) :
    AttemptMap :=
  match failedLoginAttempts.get email with
  | Read.undefined => failedLoginAttempts
  | held =>
    if (minus currentTime (lastAttempt held)).ge (30 * 60 * 1000) then
      failedLoginAttempts.delete email
    else failedLoginAttempts

/-- The `setInterval` callback, run when `Date.now()` is `currentTime`.  It
acts on the controller's object only. -/
def sweep (currentTime : Nat) (st : State) : State :=
  { controller :=
      (st.controller.keys).foldl (sweepStep currentTime) st.controller
    service := st.service }

/-! ## Sequential runs -/

/-- One request as it is served: the collaborators as they behave at that
moment, and the request body. -/
structure Attempt where
  env : Collaborators
  email : String
  password : String

/-- The state after serving the requests one after the other. -/
def runState : State → List Attempt → State
  | st, [] => st
  | st, a :: rest => runState (login a.env st a.email a.password).state rest

/-- The responses to the requests served one after the other. -/
def runResponses : State → List Attempt → List Response
  | _, [] => []
  | st, a :: rest =>
    (login a.env st a.email a.password).response ::
      runResponses (login a.env st a.email a.password).state rest

/-- Both objects empty, as at module load. -/
def State.empty : State := { controller := [], service := [] }

/-- Verification fails: the lookup answers, and the user is unknown or the
comparison is false. -/
def Attempt.fails (a : Attempt) : Bool :=
  match a.env.getUserByEmail a.email with
  | Except.error _ => false
  | Except.ok none => true
  | Except.ok (some u) => !(a.env.passwordMatched a.password u.password)

/-- Verification succeeds: the user is found and the comparison is true. -/
def Attempt.succeeds (a : Attempt) : Bool :=
  match a.env.getUserByEmail a.email with
  | Except.ok (some u) => a.env.passwordMatched a.password u.password
  | _ => false

/-- The number of `passwordMatched` calls in a log. -/
def comparisons (calls : List Call) : Nat :=
  (calls.filter (fun call =>
    match call with
    | Call.passwordMatched _ _ => true
    | _ => false)).length

/-- The hash the comparison runs against. -/
def comparedHash : Option User → String
  | some u => u.password
  | none => "<RANDOM_PASSWORD_FILLER>"

/-- The object records `n` failures for the e-mail: the key reads as the
number `n`, or it reads as `undefined` and `n` is zero. -/
def AttemptMap.hasCount (m : AttemptMap) (email : String) (n : Nat) : Prop :=
  m.get email = Read.own (Stored.number n) ∨ (m.get email = Read.undefined ∧ n = 0)

/-- The read is a number. -/
def Read.isNumber : Read → Bool
  | Read.own (Stored.number _) => true
  | _ => false

/-- The read stands for no failure: `undefined` or the number zero. -/
def Read.isZero : Read → Bool
  | Read.undefined => true
  | Read.own (Stored.number 0) => true
  | _ => false

/-- Two reads give the same failure count: they are equal, or each of them is
`undefined` or zero. -/
def Read.agrees (a b : Read) : Prop :=
  a = b ∨ (a.isZero = true ∧ b.isZero = true)

/-- Every request of the list is for the given e-mail and fails verification. -/
def allFail (email : String) (requests : List Attempt) : Prop :=
  ∀ a ∈ requests, a.email = email ∧ a.fails = true

/-- Two states give every e-mail the same failure count in both objects,
absent read as zero. -/
def sameCounts (s t : State) : Prop :=
  ∀ key, (s.controller.get key).agrees (t.controller.get key) ∧
    (s.service.get key).agrees (t.service.get key)

/-- Under every key that is not an inherited name, both objects record a
count and the controller's is the service's capped at four; under an
inherited name the controller's object never holds a number. -/
def capped (st : State) : Prop :=
  ∀ key,
    (key ∉ inheritedNames →
      ∃ c s, st.controller.hasCount key c ∧ st.service.hasCount key s ∧ c = min s 4) ∧
    (key ∈ inheritedNames → (st.controller.get key).isNumber = false)

/-- What happens to the process: a request is served, or the timer fires. -/
inductive Event where
  | login (request : Attempt)
  | sweep (currentTime : Nat)

/-- The state after the events, one after the other. -/
def runEvents : State → List Event → State
  | st, [] => st
  | st, Event.login a :: rest => runEvents (login a.env st a.email a.password).state rest
  | st, Event.sweep currentTime :: rest => runEvents (sweep currentTime st) rest

/-! ## Requests in flight

An `async` function runs without interruption from one `await` to the next.
`login` awaits `checkLoginCredentials`, which awaits `getUserByEmail` and then
`passwordMatched`; so one request is four uninterrupted blocks, and requests
in flight interleave block by block. -/

/-- Where a request stands: at which `await` it is suspended. -/
inductive Phase where
  /-- Not yet started. -/
  | start
  /-- The gate was open; `checkLoginCredentials` awaits `getUserByEmail`. -/
  | awaitingLookup
  /-- The lookup answered; `checkLoginCredentials` awaits `passwordMatched`. -/
  | awaitingComparison (user : Option User)
  /-- The service has returned or thrown; `login` is still suspended. -/
  | awaitingService (result : Except Thrown (Option LoginPayload))
  /-- The response is out. -/
  | finished (response : Response)

/-- A request in flight. -/
structure Task where
  request : Attempt
  phase : Phase

/-- The next uninterrupted block of one request. -/
def advance (st : State) (t : Task) : State × Task :=
  match t.phase with
  | Phase.start =>
    if geFive (st.controller.get t.request.email) then
      (st, { request := t.request, phase := Phase.finished (Response.next tooManyAttempts) })
    else
      (st, { request := t.request, phase := Phase.awaitingLookup })
  | Phase.awaitingLookup =>
    match t.request.env.getUserByEmail t.request.email with
    | Except.error e =>
      (st, { request := t.request, phase := Phase.awaitingService (Except.error e) })
    | Except.ok user =>
      (st, { request := t.request, phase := Phase.awaitingComparison user })
  | Phase.awaitingComparison user =>
    let userPassword :=
      match user with
      | some u => u.password
      | none => "<RANDOM_PASSWORD_FILLER>"
    let passwordChecked := t.request.env.passwordMatched t.request.password userPassword
    match user, passwordChecked with
    | some u, true =>
      ({ controller := st.controller, service := st.service.delete t.request.email },
        { request := t.request
          phase := Phase.awaitingService (Except.ok (some
            { email := u.email
              name := u.name
              user_id := u.id
              token := t.request.env.generateToken u.email u.id })) })
    | _, _ =>
      let attempts :=
        st.service.set t.request.email (orZeroPlusOne (st.service.get t.request.email))
      if geFive (attempts.get t.request.email) then
        ({ controller := st.controller, service := attempts },
          { request := t.request
            phase := Phase.awaitingService (Except.error tooManyAttempts) })
      else
        ({ controller := st.controller, service := attempts },
          { request := t.request, phase := Phase.awaitingService (Except.ok none) })
  | Phase.awaitingService result =>
    match result with
    | Except.error e =>
      (st, { request := t.request, phase := Phase.finished (Response.next e) })
    | Except.ok none =>
      ({ controller :=
           st.controller.set t.request.email
             (orZeroPlusOne (st.controller.get t.request.email))
         service := st.service },
        { request := t.request, phase := Phase.finished (Response.next invalidCredentials) })
    | Except.ok (some loginSuccess) =>
      ({ controller := st.controller.delete t.request.email, service := st.service },
        { request := t.request, phase := Phase.finished (Response.json200 loginSuccess) })
  | Phase.finished _ => (st, t)

/-- The scheduler resumes the request at position `i`; a position past the end
resumes nothing. -/
def stepAt : Nat → State → List Task → State × List Task
  | _, st, [] => (st, [])
  | 0, st, t :: rest => ((advance st t).1, (advance st t).2 :: rest)
  | i + 1, st, t :: rest => ((stepAt i st rest).1, t :: (stepAt i st rest).2)

/-- A schedule, the positions resumed in order, run from a state and the
requests in flight. -/
def runSchedule : List Nat → State → List Task → State × List Task
  | [], st, tasks => (st, tasks)
  | i :: rest, st, tasks => runSchedule rest (stepAt i st tasks).1 (stepAt i st tasks).2

/-- The requests, all of them not yet started. -/
def inFlight (requests : List Attempt) : List Task :=
  requests.map (fun a => { request := a, phase := Phase.start })

/-- The request has its response. -/
def Task.isFinished (t : Task) : Bool :=
  match t.phase with
  | Phase.finished _ => true
  | _ => false

/-- One when the service has already run its last block for the request. -/
def Task.passed (t : Task) : Nat :=
  match t.phase with
  | Phase.awaitingService _ => 1
  | Phase.finished _ => 1
  | _ => 0

/-- One when the request has its response. -/
def Task.completed (t : Task) : Nat :=
  match t.phase with
  | Phase.finished _ => 1
  | _ => 0

/-- A failing request for the e-mail, with a phase that such a request can be
in while fewer than five failures are recorded. -/
def Task.sound (email : String) (t : Task) : Prop :=
  t.request.email = email ∧ t.request.fails = true ∧
  match t.phase with
  | Phase.start => True
  | Phase.awaitingLookup => True
  | Phase.awaitingComparison user => t.request.env.getUserByEmail t.request.email = Except.ok user
  | Phase.awaitingService result => result = Except.ok none
  | Phase.finished response => response = Response.next invalidCredentials

/-- The number of requests of the list the service has finished with. -/
def passedCount (tasks : List Task) : Nat := (tasks.map Task.passed).sum

/-- The number of requests of the list that have their response. -/
def completedCount (tasks : List Task) : Nat := (tasks.map Task.completed).sum

/-- How far a request has come: the number of blocks behind it, a request
answered at the gate counting as all four. -/
def Phase.rank : Phase → Nat
  | Phase.start => 0
  | Phase.awaitingLookup => 1
  | Phase.awaitingComparison _ => 2
  | Phase.awaitingService _ => 3
  | Phase.finished _ => 4

/-- The rank of the request at a position; a position past the end has no
request left to run. -/
def rankAt : List Task → Nat → Nat
  | [], _ => 4
  | t :: _, 0 => t.phase.rank
  | _ :: rest, i + 1 => rankAt rest i

/-! ## A concrete store -/

/-- A store with one user, a comparison by equality and a token by
concatenation. -/
def sampleEnv : Collaborators :=
  { getUserByEmail := fun email =>
      if email = "a@x.com" then
        Except.ok (some { id := "1", name := "A", email := "a@x.com", password := "s3cret" })
      else Except.ok none
    passwordMatched := fun password hashed => decide (password = hashed)
    generateToken := fun email id => email ++ ":" ++ id }

/-- A request for `a@x.com` with a wrong password. -/
def wrongAttempt : Attempt := { env := sampleEnv, email := "a@x.com", password := "wrong" }

/-- A request for `a@x.com` with the right password. -/
def rightAttempt : Attempt := { env := sampleEnv, email := "a@x.com", password := "s3cret" }

/-- The state after five failed logins for `a@x.com`. -/
def afterFive : State := runState State.empty (List.replicate 5 wrongAttempt)

/-- A store whose lookup is rejected. -/
def downEnv : Collaborators :=
  { getUserByEmail := fun _ => Except.error (Thrown.fault "store unavailable")
    passwordMatched := fun password hashed => decide (password = hashed)
    generateToken := fun email id => email ++ ":" ++ id }

/-- A state in which the controller's count of `a@x.com` is five. -/
def gateShut : State :=
  { controller := [("a@x.com", Stored.number 5)], service := [("a@x.com", Stored.number 5)] }

/-- A state with two recorded failures for `a@x.com` in both objects. -/
def twoFailures : State :=
  { controller := [("a@x.com", Stored.number 2)], service := [("a@x.com", Stored.number 2)] }

/-- A store with one user `a@x.com` whose stored hash is given; a hash
matches a password when it is the password behind one of two salts. -/
def saltedEnv (stored : String) : Collaborators :=
  { getUserByEmail := fun email =>
      if email = "a@x.com" then
        Except.ok (some { id := "1", name := "A", email := "a@x.com", password := stored })
      else Except.ok none
    passwordMatched := fun password hashed =>
      decide (hashed = "x-" ++ password) || decide (hashed = "y-" ++ password)
    generateToken := fun email id => email ++ ":" ++ id }

/-- A state with an entry for another e-mail only. -/
def otherOnly : State :=
  { controller := [("b@x.com", Stored.number 2)], service := [("b@x.com", Stored.number 2)] }

/-- The same state with `a@x.com` mapped to zero in both objects. -/
def otherAndZero : State :=
  { controller := [("b@x.com", Stored.number 2), ("a@x.com", Stored.number 0)],
    service := [("b@x.com", Stored.number 2), ("a@x.com", Stored.number 0)] }

/-- Requests and timer runs: five failures for `a@x.com`, a sweep, a failure
for an unknown e-mail, two more failures for `a@x.com`. -/
def sampleEvents : List Event :=
  List.replicate 5 (Event.login wrongAttempt) ++
    [Event.sweep 1800000, Event.login { env := sampleEnv, email := "b@x.com", password := "x" },
     Event.login wrongAttempt, Event.login wrongAttempt]

/-- Three requests with a wrong password, resumed in turn, block by block. -/
def roundRobin : List Nat := [0, 1, 2, 0, 1, 2, 0, 1, 2, 0, 1, 2]

/-- A store that holds a user whose e-mail field is the string `constructor`. -/
def namedEnv : Collaborators :=
  { getUserByEmail := fun email =>
      if email = "constructor" then
        Except.ok (some
          { id := "2", name := "C", email := "constructor", password := "s3cret" })
      else Except.ok none
    passwordMatched := fun password hashed => decide (password = hashed)
    generateToken := fun email id => email ++ ":" ++ id }

/-- A request whose e-mail field is `constructor`, with a wrong password. -/
def namedWrong : Attempt := { env := namedEnv, email := "constructor", password := "wrong" }

/-- A request whose e-mail field is `constructor`, with the right password. -/
def namedRight : Attempt := { env := namedEnv, email := "constructor", password := "s3cret" }

/-- A state in which `constructor` is mapped to zero in both objects. -/
def namedZero : State :=
  { controller := [("constructor", Stored.number 0)],
    service := [("constructor", Stored.number 0)] }

/-! ## The attempt objects -/

theorem AttemptMap.own_set_other (m : AttemptMap) (key other : String) (v : Stored)
    (h : key ≠ other) : (m.set key v).own other = m.own other := by
  induction m with
  | nil =>
    by_cases hp : key = "__proto__"
    · simp [AttemptMap.set, hp]
    · simp [AttemptMap.set, AttemptMap.own, hp, h]
  | cons entry rest ih =>
    obtain ⟨k, w⟩ := entry
    by_cases hk : k = key
    · subst hk
      simp [AttemptMap.set, AttemptMap.own, h]
    · by_cases ho : k = other
      · subst ho
        simp [AttemptMap.set, AttemptMap.own, hk]
      · simp [AttemptMap.set, AttemptMap.own, hk, ho, ih]

theorem AttemptMap.get_set_other (m : AttemptMap) (key other : String) (v : Stored)
    (h : key ≠ other) : (m.set key v).get other = m.get other := by
  simp [AttemptMap.get, AttemptMap.own_set_other m key other v h]

theorem AttemptMap.own_set_self_of_own (m : AttemptMap) (key : String) (v w : Stored)
    (h : m.own key = some w) : (m.set key v).own key = some v := by
  induction m with
  | nil => simp [AttemptMap.own] at h
  | cons entry rest ih =>
    obtain ⟨k, u⟩ := entry
    by_cases hk : k = key
    · simp [AttemptMap.set, AttemptMap.own, hk]
    · simp only [AttemptMap.own, hk, if_false] at h
      simp [AttemptMap.set, AttemptMap.own, hk, ih h]

theorem AttemptMap.own_set_self_of_ne (m : AttemptMap) (key : String) (v : Stored)
    (h : key ≠ "__proto__") : (m.set key v).own key = some v := by
  induction m with
  | nil => simp [AttemptMap.set, AttemptMap.own, h]
  | cons entry rest ih =>
    obtain ⟨k, u⟩ := entry
    by_cases hk : k = key
    · simp [AttemptMap.set, AttemptMap.own, hk]
    · simp [AttemptMap.set, AttemptMap.own, hk, ih]

/-- A write to `__proto__` on an object without such an own property changes
nothing. -/
theorem AttemptMap.set_proto_of_absent (m : AttemptMap) (v : Stored)
    (h : m.own "__proto__" = none) : m.set "__proto__" v = m := by
  induction m with
  | nil => simp [AttemptMap.set]
  | cons entry rest ih =>
    obtain ⟨k, u⟩ := entry
    by_cases hk : k = "__proto__"
    · simp [AttemptMap.own, hk] at h
    · simp only [AttemptMap.own, hk, if_false] at h
      simp [AttemptMap.set, hk, ih h]

theorem AttemptMap.get_absent_proto (m : AttemptMap) (h : m.own "__proto__" = none) :
    m.get "__proto__" = Read.inherited "__proto__" := by
  simp [AttemptMap.get, h, inheritedNames]

/-- A write is read back, unless it went to the inherited `__proto__`. -/
theorem AttemptMap.get_set_self (m : AttemptMap) (key : String) (v : Stored)
    (h : m.get key ≠ Read.inherited "__proto__") : (m.set key v).get key = Read.own v := by
  cases hown : m.own key with
  | some w => simp [AttemptMap.get, AttemptMap.own_set_self_of_own m key v w hown]
  | none =>
    by_cases hp : key = "__proto__"
    · subst hp
      exact absurd (AttemptMap.get_absent_proto m hown) h
    · simp [AttemptMap.get, AttemptMap.own_set_self_of_ne m key v hp]

theorem AttemptMap.own_delete_self (m : AttemptMap) (key : String) :
    (m.delete key).own key = none := by
  induction m with
  | nil => simp [AttemptMap.delete, AttemptMap.own]
  | cons entry rest ih =>
    obtain ⟨k, w⟩ := entry
    by_cases h : k = key
    · simp [AttemptMap.delete, h, ih]
    · simp [AttemptMap.delete, AttemptMap.own, h, ih]

theorem AttemptMap.get_delete_self (m : AttemptMap) (key : String) :
    (m.delete key).get key =
      if key ∈ inheritedNames then Read.inherited key else Read.undefined := by
  simp [AttemptMap.get, AttemptMap.own_delete_self]

theorem AttemptMap.own_delete_other (m : AttemptMap) (key other : String)
    (h : key ≠ other) : (m.delete key).own other = m.own other := by
  induction m with
  | nil => simp [AttemptMap.delete, AttemptMap.own]
  | cons entry rest ih =>
    obtain ⟨k, w⟩ := entry
    by_cases hk : k = key
    · subst hk
      simp [AttemptMap.delete, AttemptMap.own, h, ih]
    · by_cases ho : k = other
      · subst ho
        simp [AttemptMap.delete, AttemptMap.own, hk]
      · simp [AttemptMap.delete, AttemptMap.own, hk, ho, ih]

theorem AttemptMap.get_delete_other (m : AttemptMap) (key other : String)
    (h : key ≠ other) : (m.delete key).get other = m.get other := by
  simp [AttemptMap.get, AttemptMap.own_delete_other m key other h]

theorem geFive_eq_true_iff (x : Read) :
    geFive x = true ↔ ∃ n, x = Read.own (Stored.number n) ∧ 5 ≤ n := by
  cases x with
  | undefined => simp [geFive]
  | inherited name => simp [geFive]
  | own value =>
    cases value with
    | number n => simp [geFive]
    | text name ones => simp [geFive]

theorem orZeroPlusOne_number (n : Nat) :
    orZeroPlusOne (Read.own (Stored.number n)) = Stored.number (n + 1) := by
  cases n <;> rfl

/-! ## Recorded counts -/

theorem AttemptMap.hasCount_gate (m : AttemptMap) (email : String) (n : Nat)
    (h : m.hasCount email n) : geFive (m.get email) = decide (5 ≤ n) := by
  rcases h with h | ⟨h, h0⟩
  · rw [h]; rfl
  · rw [h, h0]; rfl

theorem AttemptMap.hasCount_next (m : AttemptMap) (email : String) (n : Nat)
    (h : m.hasCount email n) : orZeroPlusOne (m.get email) = Stored.number (n + 1) := by
  rcases h with h | ⟨h, h0⟩
  · rw [h, orZeroPlusOne_number]
  · rw [h, h0]; rfl

theorem AttemptMap.hasCount_writable (m : AttemptMap) (email : String) (n : Nat)
    (h : m.hasCount email n) : m.get email ≠ Read.inherited "__proto__" := by
  rcases h with h | ⟨h, _⟩ <;> rw [h] <;> simp

theorem AttemptMap.hasCount_of_get (m : AttemptMap) (email : String) (n : Nat)
    (h : m.get email = Read.own (Stored.number n)) : m.hasCount email n :=
  Or.inl h

theorem AttemptMap.hasCount_unique (m : AttemptMap) (email : String) (a b : Nat)
    (ha : m.hasCount email a) (hb : m.hasCount email b) : a = b := by
  rcases ha with ha | ⟨ha, ha0⟩ <;> rcases hb with hb | ⟨hb, hb0⟩
  · rw [ha] at hb
    simpa using hb
  · rw [ha] at hb
    simp at hb
  · rw [ha] at hb
    simp at hb
  · omega

/-- After the write of the next count, the key reads as that count. -/
theorem AttemptMap.hasCount_set (m : AttemptMap) (email : String) (n : Nat)
    (h : m.hasCount email n) :
    (m.set email (orZeroPlusOne (m.get email))).get email =
      Read.own (Stored.number (n + 1)) := by
  rw [AttemptMap.get_set_self m email _ (m.hasCount_writable email n h),
    m.hasCount_next email n h]

theorem AttemptMap.hasCount_delete (m : AttemptMap) (email : String)
    (h : email ∉ inheritedNames) : (m.delete email).hasCount email 0 := by
  right
  rw [AttemptMap.get_delete_self]
  simp [h]

theorem hasCount_empty (email : String) (h : email ∉ inheritedNames) :
    State.empty.controller.hasCount email 0 ∧ State.empty.service.hasCount email 0 := by
  constructor <;>
  · right
    simp [State.empty, AttemptMap.get, AttemptMap.own, h]

/-- An e-mail address contains the character `@`, which no inherited name
does. -/
theorem not_inherited_of_at_sign (email : String) (h : '@' ∈ email.toList) :
    email ∉ inheritedNames := by
  intro hmem
  simp only [inheritedNames, List.mem_cons, List.mem_singleton, List.not_mem_nil,
    or_false] at hmem
  rcases hmem with rfl | rfl | rfl | rfl | rfl | rfl | rfl | rfl | rfl | rfl | rfl | rfl <;>
    revert h <;> decide

/-! ## What `checkLoginCredentials` does, case by case -/

/-- A rejected lookup is rethrown; nothing else happens. -/
theorem check_of_fault (c : Collaborators) (m : AttemptMap) (email password : String)
    (e : Thrown) (h : c.getUserByEmail email = Except.error e) :
    checkLoginCredentials c m email password =
      { result := Except.error e, attempts := m, calls := [Call.getUserByEmail email] } := by
  simp [checkLoginCredentials, h]

/-- The user is found and the comparison is true. -/
theorem check_of_match (c : Collaborators) (m : AttemptMap) (email password : String)
    (u : User) (h : c.getUserByEmail email = Except.ok (some u))
    (hm : c.passwordMatched password u.password = true) :
    checkLoginCredentials c m email password =
      { result := Except.ok (some
          { email := u.email, name := u.name, user_id := u.id,
            token := c.generateToken u.email u.id })
        attempts := m.delete email
        calls := [Call.getUserByEmail email, Call.passwordMatched password u.password,
                  Call.generateToken u.email u.id] } := by
  simp [checkLoginCredentials, h, hm]

/-- The lookup answers and verification fails. -/
theorem check_of_mismatch (c : Collaborators) (m : AttemptMap) (email password : String)
    (user : Option User) (h : c.getUserByEmail email = Except.ok user)
    (hm : ∀ u, user = some u → c.passwordMatched password u.password = false) :
    checkLoginCredentials c m email password =
      { result :=
          if geFive ((m.set email (orZeroPlusOne (m.get email))).get email) then
            Except.error tooManyAttempts
          else Except.ok none
        attempts := m.set email (orZeroPlusOne (m.get email))
        calls := [Call.getUserByEmail email,
                  Call.passwordMatched password (comparedHash user)] } := by
  cases user with
  | none =>
    simp [checkLoginCredentials, h, comparedHash]
    split <;> simp_all
  | some u =>
    have hu := hm u rfl
    simp [checkLoginCredentials, h, hu, comparedHash]
    split <;> simp_all

theorem fails_iff (a : Attempt) :
    a.fails = true ↔
      ∃ user, a.env.getUserByEmail a.email = Except.ok user ∧
        ∀ u, user = some u → a.env.passwordMatched a.password u.password = false := by
  unfold Attempt.fails
  cases h : a.env.getUserByEmail a.email with
  | error e => simp
  | ok user =>
    cases user with
    | none => simp
    | some u => simp

theorem succeeds_iff (a : Attempt) :
    a.succeeds = true ↔
      ∃ u, a.env.getUserByEmail a.email = Except.ok (some u) ∧
        a.env.passwordMatched a.password u.password = true := by
  unfold Attempt.succeeds
  cases h : a.env.getUserByEmail a.email with
  | error e => simp
  | ok user =>
    cases user with
    | none => simp
    | some u => simp

/-! ## What `login` does, case by case -/

/-- The controller's own gate. -/
theorem login_of_blocked (c : Collaborators) (st : State) (email password : String)
    (h : geFive (st.controller.get email) = true) :
    login c st email password =
      { response := Response.next tooManyAttempts, state := st, calls := [] } := by
  simp [login, h]

/-- The lookup is rejected. -/
theorem login_of_fault (c : Collaborators) (st : State) (email password : String)
    (e : Thrown) (hgate : geFive (st.controller.get email) = false)
    (h : c.getUserByEmail email = Except.error e) :
    login c st email password =
      { response := Response.next e
        state := st
        calls := [Call.checkLoginCredentials email password, Call.getUserByEmail email] } := by
  simp [login, hgate, check_of_fault c st.service email password e h]

/-- Verification succeeds. -/
theorem login_of_match (c : Collaborators) (st : State) (email password : String)
    (u : User) (hgate : geFive (st.controller.get email) = false)
    (h : c.getUserByEmail email = Except.ok (some u))
    (hm : c.passwordMatched password u.password = true) :
    login c st email password =
      { response := Response.json200
          { email := u.email, name := u.name, user_id := u.id,
            token := c.generateToken u.email u.id }
        state :=
          { controller := st.controller.delete email, service := st.service.delete email }
        calls := [Call.checkLoginCredentials email password, Call.getUserByEmail email,
                  Call.passwordMatched password u.password,
                  Call.generateToken u.email u.id] } := by
  simp [login, hgate, check_of_match c st.service email password u h hm]

/-- Verification fails and the service's entry, read back, is below five or
not a number. -/
theorem login_of_mismatch_open (c : Collaborators) (st : State) (email password : String)
    (user : Option User) (hgate : geFive (st.controller.get email) = false)
    (h : c.getUserByEmail email = Except.ok user)
    (hm : ∀ u, user = some u → c.passwordMatched password u.password = false)
    (hback : geFive ((st.service.set email (orZeroPlusOne (st.service.get email))).get email)
      = false) :
    login c st email password =
      { response := Response.next invalidCredentials
        state :=
          { controller := st.controller.set email (orZeroPlusOne (st.controller.get email))
            service := st.service.set email (orZeroPlusOne (st.service.get email)) }
        calls := [Call.checkLoginCredentials email password, Call.getUserByEmail email,
                  Call.passwordMatched password (comparedHash user)] } := by
  simp [login, hgate, check_of_mismatch c st.service email password user h hm, hback]

/-- Verification fails and the service's entry, read back, is five or more. -/
theorem login_of_mismatch_shut (c : Collaborators) (st : State) (email password : String)
    (user : Option User) (hgate : geFive (st.controller.get email) = false)
    (h : c.getUserByEmail email = Except.ok user)
    (hm : ∀ u, user = some u → c.passwordMatched password u.password = false)
    (hback : geFive ((st.service.set email (orZeroPlusOne (st.service.get email))).get email)
      = true) :
    login c st email password =
      { response := Response.next tooManyAttempts
        state :=
          { controller := st.controller
            service := st.service.set email (orZeroPlusOne (st.service.get email)) }
        calls := [Call.checkLoginCredentials email password, Call.getUserByEmail email,
                  Call.passwordMatched password (comparedHash user)] } := by
  simp [login, hgate, check_of_mismatch c st.service email password user h hm, hback]

theorem gate_open_of_count (m : AttemptMap) (email : String) (n : Nat)
    (h : m.hasCount email n) (hn : n < 5) : geFive (m.get email) = false := by
  rw [m.hasCount_gate email n h]
  simp
  omega

/-- One failing request below the threshold: INVALID_CREDENTIALS, and both
counts go up by one. -/
theorem step_below (a : Attempt) (st : State) (c s : Nat) (hf : a.fails = true)
    (hc : st.controller.hasCount a.email c) (hcn : c < 5)
    (hs : st.service.hasCount a.email s) (hsn : s + 1 < 5) :
    (login a.env st a.email a.password).response = Response.next invalidCredentials ∧
    (login a.env st a.email a.password).state.controller.get a.email =
      Read.own (Stored.number (c + 1)) ∧
    (login a.env st a.email a.password).state.service.get a.email =
      Read.own (Stored.number (s + 1)) := by
  obtain ⟨user, hu, hm⟩ := (fails_iff a).mp hf
  have hback : geFive ((st.service.set a.email
      (orZeroPlusOne (st.service.get a.email))).get a.email) = false := by
    rw [st.service.hasCount_set a.email s hs]
    simp [geFive]
    omega
  rw [login_of_mismatch_open a.env st a.email a.password user
    (gate_open_of_count _ _ c hc hcn) hu hm hback]
  exact ⟨rfl, st.controller.hasCount_set a.email c hc, st.service.hasCount_set a.email s hs⟩

/-- One failing request that takes the service's count to five or beyond:
FORBIDDEN, and only the service's count goes up. -/
theorem step_at (a : Attempt) (st : State) (c s : Nat) (hf : a.fails = true)
    (hc : st.controller.hasCount a.email c) (hcn : c < 5)
    (hs : st.service.hasCount a.email s) (hsn : 5 ≤ s + 1) :
    (login a.env st a.email a.password).response = Response.next tooManyAttempts ∧
    (login a.env st a.email a.password).state.controller = st.controller ∧
    (login a.env st a.email a.password).state.service.get a.email =
      Read.own (Stored.number (s + 1)) := by
  obtain ⟨user, hu, hm⟩ := (fails_iff a).mp hf
  have hback : geFive ((st.service.set a.email
      (orZeroPlusOne (st.service.get a.email))).get a.email) = true := by
    rw [st.service.hasCount_set a.email s hs]
    simp [geFive]
    omega
  rw [login_of_mismatch_shut a.env st a.email a.password user
    (gate_open_of_count _ _ c hc hcn) hu hm hback]
  exact ⟨rfl, rfl, st.service.hasCount_set a.email s hs⟩

/-- A run of failing requests for one e-mail that stays below the threshold:
every response is INVALID_CREDENTIALS and both counts go up by the number of
requests. -/
theorem run_below (email : String) (requests : List Attempt) :
    ∀ (st : State) (c s : Nat), allFail email requests →
      st.controller.hasCount email c → st.service.hasCount email s →
      c + requests.length < 5 → s + requests.length < 5 →
      runResponses st requests =
          List.replicate requests.length (Response.next invalidCredentials) ∧
        (runState st requests).controller.hasCount email (c + requests.length) ∧
        (runState st requests).service.hasCount email (s + requests.length) := by
  induction requests with
  | nil =>
    intro st c s _ hc hs _ _
    exact ⟨rfl, hc, hs⟩
  | cons a rest ih =>
    intro st c s hall hc hs hcn hsn
    have ha := hall a (List.mem_cons_self a rest)
    obtain ⟨hemail, hf⟩ := ha
    subst hemail
    have hrest : allFail a.email rest := fun b hb => hall b (List.mem_cons_of_mem a hb)
    simp only [List.length_cons] at hcn hsn
    obtain ⟨hr, hcg, hsg⟩ := step_below a st c s hf hc (by omega) hs (by omega)
    obtain ⟨ir, ic, is⟩ := ih (login a.env st a.email a.password).state (c + 1) (s + 1) hrest
      (Or.inl hcg) (Or.inl hsg) (by omega) (by omega)
    refine ⟨?_, ?_, ?_⟩
    · simp [runResponses, hr, ir, List.replicate_succ]
    · simp only [runState, List.length_cons]
      have e : c + (rest.length + 1) = c + 1 + rest.length := by omega
      rw [e]
      exact ic
    · simp only [runState, List.length_cons]
      have e : s + (rest.length + 1) = s + 1 + rest.length := by omega
      rw [e]
      exact is

theorem runState_append (st : State) (front back : List Attempt) :
    runState st (front ++ back) = runState (runState st front) back := by
  induction front generalizing st with
  | nil => rfl
  | cons a rest ih => simp [runState, ih]

theorem runResponses_append (st : State) (front back : List Attempt) :
    runResponses st (front ++ back) =
      runResponses st front ++ runResponses (runState st front) back := by
  induction front generalizing st with
  | nil => rfl
  | cons a rest ih => simp [runResponses, runState, ih]

theorem allFail_append (email : String) (front back : List Attempt) :
    allFail email (front ++ back) ↔ allFail email front ∧ allFail email back := by
  unfold allFail
  exact List.forall_mem_append

theorem allFail_singleton (email : String) (a : Attempt) :
    allFail email [a] ↔ a.email = email ∧ a.fails = true := by
  simp [allFail]

/-- A list of five requests is four requests and a last one. -/
theorem split_last (requests : List Attempt) (n : Nat) (h : requests.length = n + 1) :
    ∃ front last, requests = front ++ [last] ∧ front.length = n := by
  rcases List.eq_nil_or_concat requests with hnil | ⟨front, last, hcat⟩
  · subst hnil
    simp at h
  · refine ⟨front, last, ?_, ?_⟩
    · rw [hcat, List.concat_eq_append]
    · rw [hcat, List.concat_eq_append] at h
      simp at h
      exact h

/-- Failing requests for one e-mail, the last of which takes the service's
count to five: INVALID_CREDENTIALS for all but the last, FORBIDDEN for the
last; the controller's count misses the last one. -/
theorem run_to_threshold (email : String) (requests : List Attempt) (st : State) (c s : Nat)
    (hall : allFail email requests)
    (hc : st.controller.hasCount email c) (hs : st.service.hasCount email s)
    (hcn : c + requests.length ≤ 5) (hsn : s + requests.length = 5)
    (hne : requests ≠ []) :
    runResponses st requests =
        List.replicate (requests.length - 1) (Response.next invalidCredentials) ++
          [Response.next tooManyAttempts] ∧
      (runState st requests).controller.hasCount email (c + (requests.length - 1)) ∧
      (runState st requests).service.get email = Read.own (Stored.number 5) := by
  obtain ⟨front, last, hsplit, hlen⟩ :=
    split_last requests (requests.length - 1) (by
      have : 0 < requests.length := List.length_pos.mpr hne
      omega)
  subst hsplit
  simp only [List.length_append, List.length_singleton, Nat.add_sub_cancel] at hcn hsn hlen ⊢
  obtain ⟨hfront, hlast⟩ := (allFail_append email front [last]).mp hall
  obtain ⟨hemail, hf⟩ := (allFail_singleton email last).mp hlast
  subst hemail
  obtain ⟨hr, hcc, hsc⟩ := run_below last.email front st c s hfront hc hs (by omega) (by omega)
  obtain ⟨lr, lc, ls⟩ := step_at last (runState st front) (c + front.length)
    (s + front.length) hf hcc (by omega) hsc (by omega)
  refine ⟨?_, ?_, ?_⟩
  · rw [runResponses_append, hr]
    simp [runResponses, lr]
  · rw [runState_append]
    simp only [runState]
    rw [lc]
    exact hcc
  · rw [runState_append]
    simp only [runState]
    rw [ls]
    have e : s + front.length + 1 = 5 := by omega
    rw [e]

theorem sweepStep_eq (currentTime : Nat) (m : AttemptMap) (email : String) :
    sweepStep currentTime m email = m := by
  unfold sweepStep
  cases m.get email <;> simp [lastAttempt, minus, JsNumber.ge]

/-- The sweep reads `.lastAttempt` on numbers and strings, gets `undefined`,
compares `NaN` with the window, and so deletes nothing. -/
theorem sweep_eq (currentTime : Nat) (st : State) : sweep currentTime st = st := by
  have hfold : ∀ (keys : List String) (m : AttemptMap),
      keys.foldl (sweepStep currentTime) m = m := by
    intro keys
    induction keys with
    | nil => intro m; rfl
    | cons k rest ih => intro m; simp [List.foldl, sweepStep_eq, ih]
  simp [sweep, hfold]

/-- One request that passes verification while the controller's gate is open:
status 200, and the e-mail's own property is removed from both objects. -/
theorem step_success (a : Attempt) (st : State) (hok : a.succeeds = true)
    (hgate : geFive (st.controller.get a.email) = false) :
    (∃ payload, (login a.env st a.email a.password).response = Response.json200 payload) ∧
    (login a.env st a.email a.password).state =
      { controller := st.controller.delete a.email
        service := st.service.delete a.email } := by
  obtain ⟨u, hu, hm⟩ := (succeeds_iff a).mp hok
  rw [login_of_match a.env st a.email a.password u hgate hu hm]
  exact ⟨⟨_, rfl⟩, rfl⟩

theorem allFail_sample : allFail "a@x.com" (List.replicate 5 wrongAttempt) := by
  intro a ha
  rw [List.mem_replicate] at ha
  rw [ha.2]
  decide

theorem sample_not_inherited : "a@x.com" ∉ inheritedNames := by decide

/-- After any five failing requests for one e-mail from empty objects, the
controller's count is 4 and its gate is open: a request for that e-mail that
passes verification is answered with status 200 after one comparison. -/
theorem served_after_five_failures (email : String) (hname : email ∉ inheritedNames)
    (requests : List Attempt)
    (hlen : requests.length = 5) (hall : allFail email requests)
    (good : Attempt) (hemail : good.email = email) (hgood : good.succeeds = true) :
    (runState State.empty requests).controller.hasCount email 4 ∧
    (∃ payload,
      (login good.env (runState State.empty requests) good.email good.password).response =
        Response.json200 payload) ∧
    comparisons
      (login good.env (runState State.empty requests) good.email good.password).calls = 1 := by
  obtain ⟨h0c, h0s⟩ := hasCount_empty email hname
  have hne : requests ≠ [] := by
    intro hnil
    rw [hnil] at hlen
    simp at hlen
  obtain ⟨_, hc, _⟩ := run_to_threshold email requests State.empty 0 0 hall h0c h0s
    (by omega) (by omega) hne
  rw [hlen] at hc
  subst hemail
  obtain ⟨u, hu, hm⟩ := (succeeds_iff good).mp hgood
  rw [login_of_match good.env _ good.email good.password u
    (gate_open_of_count _ _ 4 hc (by omega)) hu hm]
  exact ⟨hc, ⟨_, rfl⟩, by simp [comparisons]⟩

/-! ## All cases, frames and the invariant -/

/-- What `login` can do to the state and the response, all cases. -/
theorem login_cases (c : Collaborators) (st : State) (email password : String) :
    (geFive (st.controller.get email) = true ∧
      (login c st email password).response = Response.next tooManyAttempts ∧
      (login c st email password).state = st) ∨
    (geFive (st.controller.get email) = false ∧
      (∃ e, c.getUserByEmail email = Except.error e ∧
        (login c st email password).response = Response.next e) ∧
      (login c st email password).state = st) ∨
    (geFive (st.controller.get email) = false ∧
      (∃ payload, (login c st email password).response = Response.json200 payload) ∧
      (login c st email password).state =
        { controller := st.controller.delete email, service := st.service.delete email }) ∨
    (geFive (st.controller.get email) = false ∧
      geFive ((st.service.set email (orZeroPlusOne (st.service.get email))).get email)
        = false ∧
      (login c st email password).response = Response.next invalidCredentials ∧
      (login c st email password).state =
        { controller := st.controller.set email (orZeroPlusOne (st.controller.get email))
          service := st.service.set email (orZeroPlusOne (st.service.get email)) }) ∨
    (geFive (st.controller.get email) = false ∧
      geFive ((st.service.set email (orZeroPlusOne (st.service.get email))).get email)
        = true ∧
      (login c st email password).response = Response.next tooManyAttempts ∧
      (login c st email password).state =
        { controller := st.controller
          service := st.service.set email (orZeroPlusOne (st.service.get email)) }) := by
  cases hgate : geFive (st.controller.get email) with
  | true =>
    left
    rw [login_of_blocked c st email password hgate]
    exact ⟨rfl, rfl, rfl⟩
  | false =>
    right
    cases hlookup : c.getUserByEmail email with
    | error e =>
      left
      rw [login_of_fault c st email password e hgate hlookup]
      exact ⟨rfl, ⟨e, rfl, rfl⟩, rfl⟩
    | ok user =>
      right
      by_cases hm : ∃ u, user = some u ∧ c.passwordMatched password u.password = true
      · obtain ⟨u, hu, hmatch⟩ := hm
        subst hu
        left
        rw [login_of_match c st email password u hgate hlookup hmatch]
        exact ⟨rfl, ⟨_, rfl⟩, rfl⟩
      · right
        have hmis : ∀ u, user = some u → c.passwordMatched password u.password = false := by
          intro u hu
          by_contra hcon
          exact hm ⟨u, hu, by simpa using hcon⟩
        cases hback : geFive ((st.service.set email
            (orZeroPlusOne (st.service.get email))).get email) with
        | false =>
          left
          rw [login_of_mismatch_open c st email password user hgate hlookup hmis hback]
          exact ⟨rfl, rfl, rfl, rfl⟩
        | true =>
          right
          rw [login_of_mismatch_shut c st email password user hgate hlookup hmis hback]
          exact ⟨rfl, rfl, rfl, rfl⟩

/-- The entries of every other e-mail are as before. -/
theorem login_frame (c : Collaborators) (st : State) (email password other : String)
    (h : email ≠ other) :
    (login c st email password).state.controller.get other = st.controller.get other ∧
    (login c st email password).state.service.get other = st.service.get other := by
  rcases login_cases c st email password with
    ⟨_, _, hs⟩ | ⟨_, _, hs⟩ | ⟨_, _, hs⟩ | ⟨_, _, _, hs⟩ | ⟨_, _, _, hs⟩ <;>
  rw [hs] <;>
  simp [AttemptMap.get_set_other _ email other _ h, AttemptMap.get_delete_other _ email other h]

theorem AttemptMap.get_inherited_name (m : AttemptMap) (key name : String)
    (h : m.get key = Read.inherited name) : name = key ∧ m.own key = none := by
  unfold AttemptMap.get at h
  cases hown : m.own key with
  | some v => simp [hown] at h
  | none =>
    simp only [hown] at h
    split at h
    · simp at h
      exact ⟨h.symm, rfl⟩
    · simp at h

/-- A write that goes to the inherited `__proto__` changes nothing. -/
theorem AttemptMap.set_of_inherited_proto (m : AttemptMap) (key : String) (v : Stored)
    (h : m.get key = Read.inherited "__proto__") : m.set key v = m := by
  obtain ⟨hkey, hown⟩ := m.get_inherited_name key "__proto__" h
  subst hkey
  exact m.set_proto_of_absent v hown

theorem AttemptMap.get_ne_undefined (m : AttemptMap) (key : String)
    (h : key ∈ inheritedNames) : m.get key ≠ Read.undefined := by
  unfold AttemptMap.get
  cases m.own key with
  | some v => simp
  | none => simp [h]

theorem orZeroPlusOne_text (r : Read) (hnum : r.isNumber = false) (hdef : r ≠ Read.undefined) :
    ∃ name ones, orZeroPlusOne r = Stored.text name ones := by
  cases r with
  | undefined => exact absurd rfl hdef
  | inherited name => exact ⟨name, 1, rfl⟩
  | own value =>
    cases value with
    | number n => simp [Read.isNumber] at hnum
    | text name ones => exact ⟨name, ones + 1, rfl⟩

/-- Under an inherited name, the write of `(x || 0) + 1` never leaves a
number behind. -/
theorem AttemptMap.set_stays_text (m : AttemptMap) (key : String)
    (hkey : key ∈ inheritedNames) (hnum : (m.get key).isNumber = false) :
    ((m.set key (orZeroPlusOne (m.get key))).get key).isNumber = false := by
  by_cases hp : m.get key = Read.inherited "__proto__"
  · rw [m.set_of_inherited_proto key _ hp]
    exact hnum
  · rw [m.get_set_self key _ hp]
    obtain ⟨name, ones, htext⟩ := orZeroPlusOne_text (m.get key) hnum
      (m.get_ne_undefined key hkey)
    rw [htext]
    rfl

theorem capped_login (c : Collaborators) (st : State) (email password : String)
    (h : capped st) : capped (login c st email password).state := by
  intro key
  by_cases hkey : email = key
  · subst hkey
    obtain ⟨hord, hinh⟩ := h email
    rcases login_cases c st email password with
      ⟨_, _, hs⟩ | ⟨_, _, hs⟩ | ⟨_, _, hs⟩ | ⟨_, hback, _, hs⟩ | ⟨_, hback, _, hs⟩
    · rw [hs]; exact ⟨hord, hinh⟩
    · rw [hs]; exact ⟨hord, hinh⟩
    · rw [hs]
      refine ⟨fun hname => ?_, fun hname => ?_⟩
      · exact ⟨0, 0, AttemptMap.hasCount_delete _ _ hname,
          AttemptMap.hasCount_delete _ _ hname, by simp⟩
      · simp [AttemptMap.get_delete_self, hname, Read.isNumber]
    · rw [hs]
      refine ⟨fun hname => ?_, fun hname => ?_⟩
      · obtain ⟨n, s, hn, hsv, hmin⟩ := hord hname
        rw [st.service.hasCount_set email s hsv] at hback
        simp [geFive] at hback
        exact ⟨n + 1, s + 1, Or.inl (st.controller.hasCount_set email n hn),
          Or.inl (st.service.hasCount_set email s hsv), by omega⟩
      · exact st.controller.set_stays_text email hname (hinh hname)
    · rw [hs]
      refine ⟨fun hname => ?_, fun hname => hinh hname⟩
      obtain ⟨n, s, hn, hsv, hmin⟩ := hord hname
      rw [st.service.hasCount_set email s hsv] at hback
      simp [geFive] at hback
      exact ⟨n, s + 1, hn, Or.inl (st.service.hasCount_set email s hsv), by omega⟩
  · obtain ⟨fc, fs⟩ := login_frame c st email password key hkey
    obtain ⟨hord, hinh⟩ := h key
    refine ⟨fun hname => ?_, fun hname => ?_⟩
    · obtain ⟨n, s, hn, hsv, hmin⟩ := hord hname
      refine ⟨n, s, ?_, ?_, hmin⟩
      · unfold AttemptMap.hasCount
        rw [fc]
        exact hn
      · unfold AttemptMap.hasCount
        rw [fs]
        exact hsv
    · rw [fc]
      exact hinh hname

theorem capped_runEvents (events : List Event) :
    ∀ st : State, capped st → capped (runEvents st events) := by
  induction events with
  | nil => intro st h; exact h
  | cons ev rest ih =>
    intro st h
    cases ev with
    | login a => exact ih _ (capped_login a.env st a.email a.password h)
    | sweep currentTime =>
      simp only [runEvents]
      rw [sweep_eq]
      exact ih st h

theorem capped_empty : capped State.empty := by
  intro key
  refine ⟨fun hname => ?_, fun hname => ?_⟩
  · obtain ⟨hc, hs⟩ := hasCount_empty key hname
    exact ⟨0, 0, hc, hs, by simp⟩
  · simp [State.empty, AttemptMap.get, AttemptMap.own, hname, Read.isNumber]

/-- A returned payload is built from the found user's e-mail, name and id. -/
theorem payload_of_success (c : Collaborators) (m : AttemptMap) (email password : String)
    (u : User) (payload : LoginPayload)
    (hlookup : c.getUserByEmail email = Except.ok (some u))
    (h : (checkLoginCredentials c m email password).result = Except.ok (some payload)) :
    payload =
      { email := u.email, name := u.name, user_id := u.id,
        token := c.generateToken u.email u.id } := by
  cases hm : c.passwordMatched password u.password with
  | true =>
    rw [check_of_match c m email password u hlookup hm] at h
    simp at h
    exact h.symm
  | false =>
    rw [check_of_mismatch c m email password (some u) hlookup
      (by intro v hv; cases hv; exact hm)] at h
    split at h <;> simp at h

/-! ## States with the same counts -/

theorem Read.agrees_gate (a b : Read) (h : a.agrees b) : geFive a = geFive b := by
  rcases h with h | ⟨ha, hb⟩
  · rw [h]
  · cases a with
    | undefined =>
      cases b with
      | undefined => rfl
      | inherited name => simp [Read.isZero] at hb
      | own value =>
        cases value with
        | number n =>
          cases n with
          | zero => rfl
          | succ k => simp [Read.isZero] at hb
        | text name ones => simp [Read.isZero] at hb
    | inherited name => simp [Read.isZero] at ha
    | own value =>
      cases value with
      | text name ones => simp [Read.isZero] at ha
      | number n =>
        cases n with
        | succ k => simp [Read.isZero] at ha
        | zero =>
          cases b with
          | undefined => rfl
          | inherited name => simp [Read.isZero] at hb
          | own value =>
            cases value with
            | number n =>
              cases n with
              | zero => rfl
              | succ k => simp [Read.isZero] at hb
            | text name ones => simp [Read.isZero] at hb

theorem Read.isZero_next (a : Read) (h : a.isZero = true) :
    orZeroPlusOne a = Stored.number 1 ∧ a ≠ Read.inherited "__proto__" := by
  cases a with
  | undefined => exact ⟨rfl, by simp⟩
  | inherited name => simp [Read.isZero] at h
  | own value =>
    cases value with
    | text name ones => simp [Read.isZero] at h
    | number n =>
      cases n with
      | zero => exact ⟨rfl, by simp⟩
      | succ k => simp [Read.isZero] at h

/-- After the write of `(x || 0) + 1` two objects that agreed on the key read
the same under it. -/
theorem AttemptMap.agrees_set (m n : AttemptMap) (key : String)
    (h : (m.get key).agrees (n.get key)) :
    (m.set key (orZeroPlusOne (m.get key))).get key =
      (n.set key (orZeroPlusOne (n.get key))).get key := by
  rcases h with h | ⟨hm, hn⟩
  · by_cases hp : m.get key = Read.inherited "__proto__"
    · rw [m.set_of_inherited_proto key _ hp, n.set_of_inherited_proto key _ (h ▸ hp), h]
    · rw [m.get_set_self key _ hp, n.get_set_self key _ (h ▸ hp), h]
  · obtain ⟨m1, m2⟩ := Read.isZero_next _ hm
    obtain ⟨n1, n2⟩ := Read.isZero_next _ hn
    rw [m.get_set_self key _ m2, n.get_set_self key _ n2, m1, n1]

theorem sameCounts_of_frame (s t s' t' : State) (email : String) (h : sameCounts s t)
    (hc : s'.controller.get email = t'.controller.get email)
    (hs : s'.service.get email = t'.service.get email)
    (hsc : ∀ key, email ≠ key → s'.controller.get key = s.controller.get key)
    (hss : ∀ key, email ≠ key → s'.service.get key = s.service.get key)
    (htc : ∀ key, email ≠ key → t'.controller.get key = t.controller.get key)
    (hts : ∀ key, email ≠ key → t'.service.get key = t.service.get key) :
    sameCounts s' t' := by
  intro key
  by_cases hkey : email = key
  · subst hkey
    exact ⟨Or.inl hc, Or.inl hs⟩
  · rw [hsc key hkey, hss key hkey, htc key hkey, hts key hkey]
    exact h key

/-- The response and the call log of `login` depend on the two objects through
the counts only, and so do the counts afterwards. -/
theorem login_respects_counts (c : Collaborators) (s t : State) (email password : String)
    (h : sameCounts s t) :
    (login c s email password).response = (login c t email password).response ∧
    (login c s email password).calls = (login c t email password).calls ∧
    sameCounts (login c s email password).state (login c t email password).state := by
  obtain ⟨hce, hse⟩ := h email
  have hgate := Read.agrees_gate _ _ hce
  have hset := AttemptMap.agrees_set s.service t.service email hse
  have hsetc := AttemptMap.agrees_set s.controller t.controller email hce
  cases hgs : geFive (s.controller.get email) with
  | true =>
    rw [login_of_blocked c s email password hgs,
      login_of_blocked c t email password (hgate ▸ hgs)]
    exact ⟨rfl, rfl, h⟩
  | false =>
    have hgt : geFive (t.controller.get email) = false := hgate ▸ hgs
    cases hlookup : c.getUserByEmail email with
    | error e =>
      rw [login_of_fault c s email password e hgs hlookup,
        login_of_fault c t email password e hgt hlookup]
      exact ⟨rfl, rfl, h⟩
    | ok user =>
      by_cases hm : ∃ u, user = some u ∧ c.passwordMatched password u.password = true
      · obtain ⟨u, hu, hmatch⟩ := hm
        subst hu
        rw [login_of_match c s email password u hgs hlookup hmatch,
          login_of_match c t email password u hgt hlookup hmatch]
        refine ⟨rfl, rfl, ?_⟩
        apply sameCounts_of_frame s t _ _ email h
        · simp [AttemptMap.get_delete_self]
        · simp [AttemptMap.get_delete_self]
        · intro key hkey; exact AttemptMap.get_delete_other _ email key hkey
        · intro key hkey; exact AttemptMap.get_delete_other _ email key hkey
        · intro key hkey; exact AttemptMap.get_delete_other _ email key hkey
        · intro key hkey; exact AttemptMap.get_delete_other _ email key hkey
      · have hmis : ∀ u, user = some u → c.passwordMatched password u.password = false := by
          intro u hu
          by_contra hcon
          exact hm ⟨u, hu, by simpa using hcon⟩
        cases hback : geFive ((s.service.set email
            (orZeroPlusOne (s.service.get email))).get email) with
        | false =>
          rw [login_of_mismatch_open c s email password user hgs hlookup hmis hback,
            login_of_mismatch_open c t email password user hgt hlookup hmis (hset ▸ hback)]
          refine ⟨rfl, rfl, ?_⟩
          apply sameCounts_of_frame s t _ _ email h
          · exact hsetc
          · exact hset
          · intro key hkey; exact AttemptMap.get_set_other _ email key _ hkey
          · intro key hkey; exact AttemptMap.get_set_other _ email key _ hkey
          · intro key hkey; exact AttemptMap.get_set_other _ email key _ hkey
          · intro key hkey; exact AttemptMap.get_set_other _ email key _ hkey
        | true =>
          rw [login_of_mismatch_shut c s email password user hgs hlookup hmis hback,
            login_of_mismatch_shut c t email password user hgt hlookup hmis (hset ▸ hback)]
          refine ⟨rfl, rfl, ?_⟩
          intro key
          by_cases hkey : email = key
          · subst hkey
            exact ⟨hce, Or.inl hset⟩
          · simp only [AttemptMap.get_set_other _ email key _ hkey]
            exact h key

/-! ## Requests in flight: the blocks and the sequential handler -/

/-- Run without interruption, the four blocks of a request are `login`. -/
theorem advance_four (a : Attempt) (st : State) :
    advance (advance (advance (advance st { request := a, phase := Phase.start }).1
        (advance st { request := a, phase := Phase.start }).2).1
        (advance (advance st { request := a, phase := Phase.start }).1
          (advance st { request := a, phase := Phase.start }).2).2).1
      (advance (advance (advance st { request := a, phase := Phase.start }).1
        (advance st { request := a, phase := Phase.start }).2).1
        (advance (advance st { request := a, phase := Phase.start }).1
          (advance st { request := a, phase := Phase.start }).2).2).2 =
    ((login a.env st a.email a.password).state,
      { request := a, phase := Phase.finished (login a.env st a.email a.password).response }) := by
  cases hgate : geFive (st.controller.get a.email) with
  | true => simp [advance, login, hgate]
  | false =>
    cases hlookup : a.env.getUserByEmail a.email with
    | error e => simp [advance, login, checkLoginCredentials, hgate, hlookup]
    | ok user =>
      cases user with
      | none =>
        cases hfive : geFive ((st.service.set a.email
            (orZeroPlusOne (st.service.get a.email))).get a.email) <;>
          simp [advance, login, checkLoginCredentials, hgate, hlookup, hfive]
      | some u =>
        cases hm : a.env.passwordMatched a.password u.password with
        | true => simp [advance, login, checkLoginCredentials, hgate, hlookup, hm]
        | false =>
          cases hfive : geFive ((st.service.set a.email
              (orZeroPlusOne (st.service.get a.email))).get a.email) <;>
            simp [advance, login, checkLoginCredentials, hgate, hlookup, hm, hfive]

/-! ## Requests in flight: counts along a schedule -/

theorem Task.passed_le_one (t : Task) : t.passed ≤ 1 := by
  unfold Task.passed
  split <;> omega

theorem Task.completed_le_passed (t : Task) : t.completed ≤ t.passed := by
  unfold Task.completed Task.passed
  cases t.phase <;> simp

theorem passedCount_cons (t : Task) (rest : List Task) :
    passedCount (t :: rest) = t.passed + passedCount rest := by
  simp [passedCount]

theorem completedCount_cons (t : Task) (rest : List Task) :
    completedCount (t :: rest) = t.completed + completedCount rest := by
  simp [completedCount]

theorem passedCount_le_length (tasks : List Task) : passedCount tasks ≤ tasks.length := by
  induction tasks with
  | nil => simp [passedCount]
  | cons t rest ih =>
    rw [passedCount_cons, List.length_cons]
    have := t.passed_le_one
    omega

theorem completedCount_le_passedCount (tasks : List Task) :
    completedCount tasks ≤ passedCount tasks := by
  induction tasks with
  | nil => simp [passedCount, completedCount]
  | cons t rest ih =>
    rw [passedCount_cons, completedCount_cons]
    have := t.completed_le_passed
    omega

/-- One block of a failing request while fewer than five failures are
recorded: the request stays sound, the service's count goes up exactly when
the service finishes with the request, the controller's exactly when the
response goes out. -/
theorem advance_sound (email : String) (st : State) (t : Task) (c s : Nat)
    (hs : t.sound email)
    (hc : st.controller.hasCount email c) (hcn : c < 5)
    (hsv : st.service.hasCount email s) (hsn : t.passed = 0 → s + 1 < 5) :
    (advance st t).2.sound email ∧
    (advance st t).1.service.hasCount email (s + (advance st t).2.passed - t.passed) ∧
    (advance st t).1.controller.hasCount email
      (c + (advance st t).2.completed - t.completed) ∧
    t.passed ≤ (advance st t).2.passed ∧ t.completed ≤ (advance st t).2.completed := by
  obtain ⟨a, phase⟩ := t
  obtain ⟨hemail, hfail, hphase⟩ := hs
  simp only at hemail hfail hphase
  subst hemail
  obtain ⟨found, hfound, hmis⟩ := (fails_iff a).mp hfail
  cases phase with
  | start =>
    have hgate := gate_open_of_count _ _ c hc hcn
    simp only [advance, hgate]
    simp [Task.sound, Task.passed, Task.completed, hfail, hc, hsv]
  | awaitingLookup =>
    simp only [advance, hfound]
    simp [Task.sound, Task.passed, Task.completed, hfail, hc, hsv, hfound]
  | awaitingComparison user =>
    have huser : user = found := by
      rw [hfound] at hphase
      cases hphase
      rfl
    subst huser
    have hlow : s + 1 < 5 := hsn rfl
    have hread := st.service.hasCount_set a.email s hsv
    have hfive : geFive ((st.service.set a.email
        (orZeroPlusOne (st.service.get a.email))).get a.email) = false := by
      rw [hread]
      simp [geFive]
      omega
    cases user with
    | none =>
      simp only [advance, hfive]
      simp [Task.sound, Task.passed, Task.completed, hfail, hc]
      exact Or.inl hread
    | some u =>
      have hm := hmis u rfl
      simp only [advance, hm, hfive]
      simp [Task.sound, Task.passed, Task.completed, hfail, hc]
      exact Or.inl hread
  | awaitingService result =>
    simp only at hphase
    subst hphase
    simp only [advance]
    simp [Task.sound, Task.passed, Task.completed, hfail, hsv]
    exact Or.inl (st.controller.hasCount_set a.email c hc)
  | finished response =>
    simp only at hphase
    subst hphase
    simp only [advance]
    simp [Task.sound, Task.passed, Task.completed, hfail, hc, hsv]

theorem AttemptMap.hasCount_congr (m : AttemptMap) (email : String) (a b : Nat)
    (h : m.hasCount email a) (hab : a = b) : m.hasCount email b :=
  hab ▸ h

/-- Resuming one position keeps every request sound and keeps the two counts
in step with the phases. -/
theorem stepAt_sound (email : String) (tasks : List Task) :
    ∀ (i : Nat) (st : State) (c s : Nat), (∀ t ∈ tasks, t.sound email) →
      st.controller.hasCount email c → c < 5 →
      st.service.hasCount email s →
      s + (tasks.length - passedCount tasks) < 5 →
      (∀ t ∈ (stepAt i st tasks).2, t.sound email) ∧
      (stepAt i st tasks).1.service.hasCount email
        (s + passedCount (stepAt i st tasks).2 - passedCount tasks) ∧
      (stepAt i st tasks).1.controller.hasCount email
        (c + completedCount (stepAt i st tasks).2 - completedCount tasks) ∧
      passedCount tasks ≤ passedCount (stepAt i st tasks).2 ∧
      completedCount tasks ≤ completedCount (stepAt i st tasks).2 ∧
      (stepAt i st tasks).2.length = tasks.length := by
  induction tasks with
  | nil =>
    intro i st c s hall hc _ hs _
    simp [stepAt, passedCount, completedCount, hc, hs]
  | cons t rest ih =>
    intro i st c s hall hc hcn hs hsn
    have ht := hall t (List.mem_cons_self t rest)
    have hrest : ∀ x ∈ rest, x.sound email := fun x hx => hall x (List.mem_cons_of_mem t hx)
    have hp1 := t.passed_le_one
    have hpl := passedCount_le_length rest
    rw [passedCount_cons, List.length_cons] at hsn
    cases i with
    | zero =>
      obtain ⟨hsound, hsv, hcv, hpm, hcm⟩ :=
        advance_sound email st t c s ht hc hcn hs (by intro h0; omega)
      refine ⟨?_, ?_, ?_, ?_, ?_, ?_⟩
      · intro x hx
        simp only [stepAt, List.mem_cons] at hx
        rcases hx with hx | hx
        · rw [hx]; exact hsound
        · exact hrest x hx
      · simp only [stepAt, passedCount_cons]
        exact AttemptMap.hasCount_congr _ _ _ _ hsv (by omega)
      · simp only [stepAt, completedCount_cons]
        exact AttemptMap.hasCount_congr _ _ _ _ hcv (by omega)
      · simp only [stepAt, passedCount_cons]
        omega
      · simp only [stepAt, completedCount_cons]
        omega
      · simp [stepAt]
    | succ j =>
      obtain ⟨hsound, hsv, hcv, hpm, hcm, hlen⟩ := ih j st c s hrest hc hcn hs (by omega)
      refine ⟨?_, ?_, ?_, ?_, ?_, ?_⟩
      · intro x hx
        simp only [stepAt, List.mem_cons] at hx
        rcases hx with hx | hx
        · rw [hx]; exact ht
        · exact hsound x hx
      · simp only [stepAt, passedCount_cons]
        exact AttemptMap.hasCount_congr _ _ _ _ hsv (by omega)
      · simp only [stepAt, completedCount_cons]
        exact AttemptMap.hasCount_congr _ _ _ _ hcv (by omega)
      · simp only [stepAt, passedCount_cons]
        omega
      · simp only [stepAt, completedCount_cons]
        omega
      · simp [stepAt, hlen]

/-- Along any schedule of fewer than five failing requests for one e-mail, the
service's count is the number of requests the service has finished with and
the controller's count is the number of responses sent. -/
theorem runSchedule_sound (email : String) (schedule : List Nat) :
    ∀ (st : State) (tasks : List Task), (∀ t ∈ tasks, t.sound email) →
      tasks.length < 5 →
      st.service.hasCount email (passedCount tasks) →
      st.controller.hasCount email (completedCount tasks) →
      (∀ t ∈ (runSchedule schedule st tasks).2, t.sound email) ∧
      (runSchedule schedule st tasks).1.service.hasCount email
        (passedCount (runSchedule schedule st tasks).2) ∧
      (runSchedule schedule st tasks).1.controller.hasCount email
        (completedCount (runSchedule schedule st tasks).2) ∧
      (runSchedule schedule st tasks).2.length = tasks.length := by
  induction schedule with
  | nil =>
    intro st tasks hall _ hs hc
    exact ⟨hall, hs, hc, rfl⟩
  | cons i rest ih =>
    intro st tasks hall hlen hs hc
    have hpl := passedCount_le_length tasks
    have hcp := completedCount_le_passedCount tasks
    obtain ⟨hsound, hs1, hc1, hpm, hcm, hlen1⟩ := stepAt_sound email tasks i st
      (completedCount tasks) (passedCount tasks) hall hc (by omega) hs (by omega)
    obtain ⟨r1, r2, r3, r4⟩ := ih (stepAt i st tasks).1 (stepAt i st tasks).2 hsound
      (by omega)
      (AttemptMap.hasCount_congr _ _ _ _ hs1 (by omega))
      (AttemptMap.hasCount_congr _ _ _ _ hc1 (by omega))
    exact ⟨r1, r2, r3, by simp only [runSchedule]; omega⟩

theorem counts_of_all_finished (tasks : List Task)
    (h : tasks.all Task.isFinished = true) :
    passedCount tasks = tasks.length ∧ completedCount tasks = tasks.length := by
  induction tasks with
  | nil => simp [passedCount, completedCount]
  | cons t rest ih =>
    simp only [List.all_cons, Bool.and_eq_true] at h
    obtain ⟨ht, hrest⟩ := h
    obtain ⟨ip, ic⟩ := ih hrest
    have hp : t.passed = 1 ∧ t.completed = 1 := by
      unfold Task.isFinished at ht
      unfold Task.passed Task.completed
      cases hph : t.phase <;> simp [hph] at ht ⊢
    rw [passedCount_cons, completedCount_cons, List.length_cons]
    omega

theorem inFlight_sound (email : String) (requests : List Attempt)
    (hall : allFail email requests) :
    (∀ t ∈ inFlight requests, t.sound email) ∧ passedCount (inFlight requests) = 0 ∧
    completedCount (inFlight requests) = 0 ∧ (inFlight requests).length = requests.length := by
  induction requests with
  | nil => simp [inFlight, passedCount, completedCount]
  | cons a rest ih =>
    have ha := hall a (List.mem_cons_self a rest)
    obtain ⟨i1, i2, i3, i4⟩ := ih (fun b hb => hall b (List.mem_cons_of_mem a hb))
    have hcons : inFlight (a :: rest) =
        { request := a, phase := Phase.start } :: inFlight rest := rfl
    rw [hcons]
    refine ⟨?_, ?_, ?_, ?_⟩
    · intro t ht
      rw [List.mem_cons] at ht
      rcases ht with ht | ht
      · rw [ht]
        exact ⟨ha.1, ha.2, trivial⟩
      · exact i1 t ht
    · rw [passedCount_cons, i2]
      rfl
    · rw [completedCount_cons, i3]
      rfl
    · simp [i4]

/-! ## Requests in flight: every block moves its request forward -/

theorem Phase.rank_le_four (p : Phase) : p.rank ≤ 4 := by
  cases p <;> simp [Phase.rank]

/-- A block takes a request that is not finished to a later phase. -/
theorem advance_rank (st : State) (t : Task) :
    min 4 (t.phase.rank + 1) ≤ (advance st t).2.phase.rank := by
  obtain ⟨a, phase⟩ := t
  cases phase with
  | start =>
    simp only [advance]
    split <;> simp [Phase.rank]
  | awaitingLookup =>
    simp only [advance]
    split <;> simp [Phase.rank]
  | awaitingComparison user =>
    simp only [advance]
    split
    · simp [Phase.rank]
    · split <;> simp [Phase.rank]
  | awaitingService result =>
    simp only [advance]
    split <;> simp [Phase.rank]
  | finished response => simp [advance, Phase.rank]

theorem rankAt_stepAt_self (tasks : List Task) :
    ∀ (i : Nat) (st : State),
      min 4 (rankAt tasks i + 1) ≤ rankAt (stepAt i st tasks).2 i := by
  induction tasks with
  | nil => intro i st; simp [stepAt, rankAt]
  | cons t rest ih =>
    intro i st
    cases i with
    | zero => simpa [stepAt, rankAt] using advance_rank st t
    | succ j => simpa [stepAt, rankAt] using ih j st

theorem rankAt_stepAt_other (tasks : List Task) :
    ∀ (i j : Nat) (st : State), i ≠ j → rankAt (stepAt i st tasks).2 j = rankAt tasks j := by
  induction tasks with
  | nil => intro i j st _; simp [stepAt, rankAt]
  | cons t rest ih =>
    intro i j st hij
    cases i with
    | zero =>
      cases j with
      | zero => exact absurd rfl hij
      | succ k => simp [stepAt, rankAt]
    | succ l =>
      cases j with
      | zero => simp [stepAt, rankAt]
      | succ k =>
        simp only [stepAt, rankAt]
        exact ih l k st (by omega)

theorem rankAt_le_four (tasks : List Task) : ∀ j, rankAt tasks j ≤ 4 := by
  induction tasks with
  | nil => intro j; simp [rankAt]
  | cons t rest ih =>
    intro j
    cases j with
    | zero => simpa [rankAt] using t.phase.rank_le_four
    | succ k => simpa [rankAt] using ih k

/-- After a schedule, a request has moved forward by at least the number of
times it was resumed, up to its last phase. -/
theorem rankAt_runSchedule (schedule : List Nat) :
    ∀ (st : State) (tasks : List Task) (j : Nat),
      min 4 (rankAt tasks j + schedule.count j) ≤
        rankAt (runSchedule schedule st tasks).2 j := by
  induction schedule with
  | nil => intro st tasks j; simp [runSchedule]
  | cons i rest ih =>
    intro st tasks j
    have hrec := ih (stepAt i st tasks).1 (stepAt i st tasks).2 j
    simp only [runSchedule]
    by_cases hij : i = j
    · subst hij
      have hself := rankAt_stepAt_self tasks i st
      have hcount : (i :: rest).count i = rest.count i + 1 := by simp
      rw [hcount]
      omega
    · have hother := rankAt_stepAt_other tasks i j st hij
      have hcount : (i :: rest).count j = rest.count j := by
        simp [List.count_cons, hij]
      rw [hcount]
      omega

theorem all_finished_of_rank (tasks : List Task)
    (h : ∀ j, j < tasks.length → 4 ≤ rankAt tasks j) :
    tasks.all Task.isFinished = true := by
  induction tasks with
  | nil => rfl
  | cons t rest ih =>
    simp only [List.all_cons, Bool.and_eq_true]
    constructor
    · have h0 := h 0 (by simp)
      simp only [rankAt] at h0
      unfold Task.isFinished
      cases hph : t.phase <;> simp [hph, Phase.rank] at h0 ⊢
    · apply ih
      intro j hj
      have := h (j + 1) (by simp; omega)
      simpa [rankAt] using this

/-! ## The claims -/

/-- C1. Five failed logins for `a@x.com` from empty objects, then a sixth
request with the right password: the sixth request is answered with status
200 and the login payload, not with the FORBIDDEN error.  The controller's
count stands at 4 after the five failures, because the fifth failure is
thrown by the service before the controller increments, so the controller's
gate stays open. -/
theorem sixth_request_with_right_password_is_served :
    wrongAttempt.fails = true ∧ rightAttempt.succeeds = true ∧
    runResponses State.empty (List.replicate 5 wrongAttempt ++ [rightAttempt]) =
      [Response.next invalidCredentials, Response.next invalidCredentials,
       Response.next invalidCredentials, Response.next invalidCredentials,
       Response.next tooManyAttempts,
       Response.json200
         { email := "a@x.com", name := "A", user_id := "1", token := "a@x.com:1" }] ∧
    afterFive.controller.get "a@x.com" = Read.own (Stored.number 4) ∧
    afterFive.service.get "a@x.com" = Read.own (Stored.number 5) := by
  decide

/-- C2. After five failed logins for `a@x.com` from empty objects, the sixth
request reaches `checkLoginCredentials` and `passwordMatched` is invoked once
during it, whether the submitted password is wrong or right. -/
theorem sixth_request_runs_the_comparison :
    (login sampleEnv afterFive "a@x.com" "wrong").calls =
      [Call.checkLoginCredentials "a@x.com" "wrong", Call.getUserByEmail "a@x.com",
       Call.passwordMatched "wrong" "s3cret"] ∧
    comparisons (login sampleEnv afterFive "a@x.com" "wrong").calls = 1 ∧
    comparisons (login sampleEnv afterFive "a@x.com" "s3cret").calls = 1 := by
  decide

/-- C3. When the lookup answers, `checkLoginCredentials` returns a success
payload exactly when a user was found and `passwordMatched` returned true;
otherwise it returns `null` or throws the FORBIDDEN error. -/
theorem success_iff_found_and_matched (c : Collaborators) (failedLoginAttempts : AttemptMap)
    (email password : String) (user : Option User)
    (hlookup : c.getUserByEmail email = Except.ok user) :
    ((∃ payload, (checkLoginCredentials c failedLoginAttempts email password).result =
          Except.ok (some payload)) ↔
        ∃ u, user = some u ∧ c.passwordMatched password u.password = true) ∧
    ((¬ ∃ u, user = some u ∧ c.passwordMatched password u.password = true) →
      (checkLoginCredentials c failedLoginAttempts email password).result = Except.ok none ∨
      (checkLoginCredentials c failedLoginAttempts email password).result =
        Except.error tooManyAttempts) := by
  by_cases hm : ∃ u, user = some u ∧ c.passwordMatched password u.password = true
  · obtain ⟨u, hu, hmatch⟩ := hm
    subst hu
    rw [check_of_match c failedLoginAttempts email password u hlookup hmatch]
    simp [hmatch]
  · have hmis : ∀ u, user = some u → c.passwordMatched password u.password = false := by
      intro u hu
      by_contra hcon
      exact hm ⟨u, hu, by simpa using hcon⟩
    rw [check_of_mismatch c failedLoginAttempts email password user hlookup hmis]
    refine ⟨?_, ?_⟩
    · constructor
      · intro ⟨payload, hp⟩
        split at hp <;> simp at hp
      · intro h
        exact absurd h hm
    · intro _
      split <;> simp

/-- C3, at the sample store: the right password for the known user. -/
theorem success_iff_found_and_matched_witness :
    sampleEnv.getUserByEmail "a@x.com" =
        Except.ok (some { id := "1", name := "A", email := "a@x.com", password := "s3cret" }) ∧
    (((∃ payload, (checkLoginCredentials sampleEnv [] "a@x.com" "s3cret").result =
          Except.ok (some payload)) ↔
        ∃ u, some ({ id := "1", name := "A", email := "a@x.com", password := "s3cret" } : User)
            = some u ∧ sampleEnv.passwordMatched "s3cret" u.password = true) ∧
    ((¬ ∃ u, some ({ id := "1", name := "A", email := "a@x.com", password := "s3cret" } : User)
            = some u ∧ sampleEnv.passwordMatched "s3cret" u.password = true) →
      (checkLoginCredentials sampleEnv [] "a@x.com" "s3cret").result = Except.ok none ∨
      (checkLoginCredentials sampleEnv [] "a@x.com" "s3cret").result =
        Except.error tooManyAttempts)) :=
  ⟨by simp [sampleEnv],
    success_iff_found_and_matched sampleEnv [] "a@x.com" "s3cret" _ (by simp [sampleEnv])⟩

/-- C4. When the lookup answers, with a user or with none,
`checkLoginCredentials` calls `passwordMatched` exactly once, right after the
lookup and before anything else: against `user.password` when a user was
found, against `<RANDOM_PASSWORD_FILLER>` when none was. -/
theorem comparison_runs_exactly_once (c : Collaborators) (failedLoginAttempts : AttemptMap)
    (email password : String) (user : Option User)
    (hlookup : c.getUserByEmail email = Except.ok user) :
    comparisons (checkLoginCredentials c failedLoginAttempts email password).calls = 1 ∧
    (∃ later, (checkLoginCredentials c failedLoginAttempts email password).calls =
        [Call.getUserByEmail email, Call.passwordMatched password (comparedHash user)] ++ later ∧
      comparisons later = 0) ∧
    (∀ u, user = some u → comparedHash user = u.password) ∧
    (user = none → comparedHash user = "<RANDOM_PASSWORD_FILLER>") := by
  refine ⟨?_, ?_, ?_, ?_⟩
  · cases user with
    | none =>
      rw [check_of_mismatch c failedLoginAttempts email password none hlookup (by simp)]
      simp [comparisons]
    | some u =>
      cases hm : c.passwordMatched password u.password with
      | true =>
        rw [check_of_match c failedLoginAttempts email password u hlookup hm]
        simp [comparisons]
      | false =>
        rw [check_of_mismatch c failedLoginAttempts email password (some u) hlookup
          (by intro v hv; cases hv; exact hm)]
        simp [comparisons]
  · cases user with
    | none =>
      rw [check_of_mismatch c failedLoginAttempts email password none hlookup (by simp)]
      exact ⟨[], by simp, by simp [comparisons]⟩
    | some u =>
      cases hm : c.passwordMatched password u.password with
      | true =>
        rw [check_of_match c failedLoginAttempts email password u hlookup hm]
        exact ⟨[Call.generateToken u.email u.id], by simp [comparedHash], by simp [comparisons]⟩
      | false =>
        rw [check_of_mismatch c failedLoginAttempts email password (some u) hlookup
          (by intro v hv; cases hv; exact hm)]
        exact ⟨[], by simp, by simp [comparisons]⟩
  · intro u hu
    subst hu
    rfl
  · intro hu
    subst hu
    rfl

/-- C4, at the sample store: an unknown e-mail is compared against the
placeholder. -/
theorem comparison_runs_exactly_once_witness :
    sampleEnv.getUserByEmail "b@x.com" = Except.ok none ∧
    (comparisons (checkLoginCredentials sampleEnv [] "b@x.com" "guess").calls = 1 ∧
    (∃ later, (checkLoginCredentials sampleEnv [] "b@x.com" "guess").calls =
        [Call.getUserByEmail "b@x.com",
         Call.passwordMatched "guess" (comparedHash none)] ++ later ∧
      comparisons later = 0) ∧
    (∀ u : User, none = some u → comparedHash none = u.password) ∧
    ((none : Option User) = none → comparedHash none = "<RANDOM_PASSWORD_FILLER>")) :=
  ⟨by simp [sampleEnv],
    comparison_runs_exactly_once sampleEnv [] "b@x.com" "guess" none (by simp [sampleEnv])⟩

/-- C5. After five failed logins for `a@x.com`, the sweep run at any current
time, however late, leaves the entry of `a@x.com` in the controller's object
(and the service's object, which the sweep never touches), and the next
failing login for `a@x.com` is still answered with the FORBIDDEN error. -/
theorem sweep_keeps_stale_entry (currentTime : Nat) :
    sweep currentTime afterFive = afterFive ∧
    (sweep currentTime afterFive).controller.get "a@x.com" = Read.own (Stored.number 4) ∧
    (sweep currentTime afterFive).service.get "a@x.com" = Read.own (Stored.number 5) ∧
    (login sampleEnv (sweep currentTime afterFive) "a@x.com" "wrong").response =
      Response.next tooManyAttempts := by
  rw [sweep_eq]
  decide

/-- C6, at the e-mail field `constructor`: five failing logins from empty
objects are answered with INVALID_CREDENTIALS five times, the fifth included,
because the key reads as the inherited function, `(x || 0) + 1` is a string
and `>= 5` is false for it. -/
theorem fifth_failure_under_inherited_name :
    (List.replicate 5 namedWrong).length = 5 ∧
    (∀ a ∈ List.replicate 5 namedWrong, a.email = "constructor" ∧ a.fails = true) ∧
    runResponses State.empty (List.replicate 5 namedWrong) =
      List.replicate 5 (Response.next invalidCredentials) ∧
    runResponses State.empty (List.replicate 5 namedWrong) ≠
      List.replicate 4 (Response.next invalidCredentials) ++
        [Response.next tooManyAttempts] ∧
    (runState State.empty (List.replicate 5 namedWrong)).service.get "constructor" =
      Read.own (Stored.text "constructor" 5) := by
  refine ⟨by decide, ?_, by decide, by decide, by decide⟩
  intro a ha
  rw [List.mem_replicate] at ha
  rw [ha.2]
  decide

/-- C6. Five failing logins for one e-mail that is not a name
inherited from `Object.prototype`, served one after the other from empty
objects: the first four are answered with INVALID_CREDENTIALS and the fifth
with the FORBIDDEN error, which is a different error. -/
theorem fifth_failure_is_forbidden (email : String) (hname : email ∉ inheritedNames)
    (requests : List Attempt)
    (hlen : requests.length = 5) (hall : allFail email requests) :
    runResponses State.empty requests =
        List.replicate 4 (Response.next invalidCredentials) ++
          [Response.next tooManyAttempts] ∧
    Response.next tooManyAttempts ≠ Response.next invalidCredentials := by
  obtain ⟨h0c, h0s⟩ := hasCount_empty email hname
  have hne : requests ≠ [] := by
    intro hnil
    rw [hnil] at hlen
    simp at hlen
  obtain ⟨hr, _, _⟩ := run_to_threshold email requests State.empty 0 0 hall h0c h0s
    (by omega) (by omega) hne
  rw [hlen] at hr
  exact ⟨hr, by decide⟩

/-- C6, at the sample store: five logins with a wrong password. -/
theorem fifth_failure_is_forbidden_witness :
    "a@x.com" ∉ inheritedNames ∧
    (List.replicate 5 wrongAttempt).length = 5 ∧
    allFail "a@x.com" (List.replicate 5 wrongAttempt) ∧
    (runResponses State.empty (List.replicate 5 wrongAttempt) =
        List.replicate 4 (Response.next invalidCredentials) ++
          [Response.next tooManyAttempts] ∧
    Response.next tooManyAttempts ≠ Response.next invalidCredentials) :=
  ⟨by decide, by decide, allFail_sample,
    fifth_failure_is_forbidden "a@x.com" (by decide) (List.replicate 5 wrongAttempt)
      (by decide) allFail_sample⟩

/-- C7, at the e-mail field `constructor`: after three failed logins, one
successful login and one failed login, the controller's and the service's
entry is a string, not the count 1, and five further failures are all
answered with INVALID_CREDENTIALS. -/
theorem success_then_failure_under_inherited_name :
    (3 : Nat) < 5 ∧ namedRight.succeeds = true ∧ namedWrong.fails = true ∧
    (runState State.empty
        (List.replicate 3 namedWrong ++ [namedRight] ++ [namedWrong])).controller.get
        "constructor" = Read.own (Stored.text "constructor" 1) ∧
    (runState State.empty
        (List.replicate 3 namedWrong ++ [namedRight] ++ [namedWrong])).service.get
        "constructor" = Read.own (Stored.text "constructor" 1) ∧
    (runState State.empty
        (List.replicate 3 namedWrong ++ [namedRight] ++ [namedWrong])).controller.get
        "constructor" ≠ Read.own (Stored.number 1) ∧
    runResponses (runState State.empty (List.replicate 3 namedWrong ++ [namedRight]))
        (List.replicate 5 namedWrong) =
      List.replicate 5 (Response.next invalidCredentials) := by
  decide

/-- C7. For an e-mail that is not a name inherited from
`Object.prototype`: after `k < 5` failed logins, one successful login and one
failed login for it, its count is 1 in both objects: the successful login is
answered with status 200 and removes the entry from both objects, and from
there five failing logins are answered with INVALID_CREDENTIALS four times
and the FORBIDDEN error the fifth time. -/
theorem success_resets_both_counts (email : String) (hname : email ∉ inheritedNames)
    (k : Nat) (hk : k < 5)
    (before : List Attempt) (hlen : before.length = k) (hbefore : allFail email before)
    (good : Attempt) (hgoodEmail : good.email = email) (hgood : good.succeeds = true)
    (bad : Attempt) (hbad : allFail email [bad])
    (fresh : List Attempt) (hfreshLen : fresh.length = 5) (hfresh : allFail email fresh) :
    (∃ payload, runResponses State.empty (before ++ [good]) =
        List.replicate k (Response.next invalidCredentials) ++ [Response.json200 payload]) ∧
    (runState State.empty (before ++ [good])).controller.get email = Read.undefined ∧
    (runState State.empty (before ++ [good])).service.get email = Read.undefined ∧
    (runState State.empty (before ++ [good] ++ [bad])).controller.get email =
      Read.own (Stored.number 1) ∧
    (runState State.empty (before ++ [good] ++ [bad])).service.get email =
      Read.own (Stored.number 1) ∧
    runResponses (runState State.empty (before ++ [good])) fresh =
      List.replicate 4 (Response.next invalidCredentials) ++
        [Response.next tooManyAttempts] := by
  obtain ⟨h0c, h0s⟩ := hasCount_empty email hname
  subst hgoodEmail
  obtain ⟨hr, hc, hs⟩ := run_below good.email before State.empty 0 0 hbefore h0c h0s
    (by omega) (by omega)
  obtain ⟨⟨payload, hp⟩, hafter⟩ := step_success good (runState State.empty before) hgood
    (gate_open_of_count _ _ _ hc (by omega))
  have hstate : runState State.empty (before ++ [good]) =
      { controller := (runState State.empty before).controller.delete good.email
        service := (runState State.empty before).service.delete good.email } := by
    rw [runState_append]
    exact hafter
  have gc : (runState State.empty (before ++ [good])).controller.get good.email =
      Read.undefined := by
    rw [hstate]
    simp [AttemptMap.get_delete_self, hname]
  have gs : (runState State.empty (before ++ [good])).service.get good.email =
      Read.undefined := by
    rw [hstate]
    simp [AttemptMap.get_delete_self, hname]
  have gc0 : (runState State.empty (before ++ [good])).controller.hasCount good.email 0 :=
    Or.inr ⟨gc, rfl⟩
  have gs0 : (runState State.empty (before ++ [good])).service.hasCount good.email 0 :=
    Or.inr ⟨gs, rfl⟩
  obtain ⟨hbadEmail, hbadFails⟩ := (allFail_singleton good.email bad).mp hbad
  obtain ⟨_, bc, bs⟩ := step_below bad (runState State.empty (before ++ [good])) 0 0
    hbadFails (hbadEmail ▸ gc0) (by omega) (hbadEmail ▸ gs0) (by omega)
  have hne : fresh ≠ [] := by
    intro hnil
    rw [hnil] at hfreshLen
    simp at hfreshLen
  obtain ⟨fr, _, _⟩ := run_to_threshold good.email fresh _ 0 0 hfresh gc0 gs0
    (by omega) (by omega) hne
  rw [hfreshLen] at fr
  refine ⟨⟨payload, ?_⟩, gc, gs, ?_, ?_, fr⟩
  · rw [runResponses_append, hr, hlen]
    simp [runResponses, hp]
  · rw [runState_append]
    simp only [runState]
    rw [← hbadEmail]
    exact bc
  · rw [runState_append]
    simp only [runState]
    rw [← hbadEmail]
    exact bs

/-- C7, at the sample store: three wrong passwords, the right one, a wrong
one, then five wrong ones. -/
theorem success_resets_both_counts_witness :
    "a@x.com" ∉ inheritedNames ∧
    3 < 5 ∧ (List.replicate 3 wrongAttempt).length = 3 ∧
    rightAttempt.email = "a@x.com" ∧ rightAttempt.succeeds = true ∧
    ((∃ payload, runResponses State.empty (List.replicate 3 wrongAttempt ++ [rightAttempt]) =
        List.replicate 3 (Response.next invalidCredentials) ++ [Response.json200 payload]) ∧
    (runState State.empty (List.replicate 3 wrongAttempt ++ [rightAttempt])).controller.get
        "a@x.com" = Read.undefined ∧
    (runState State.empty (List.replicate 3 wrongAttempt ++ [rightAttempt])).service.get
        "a@x.com" = Read.undefined ∧
    (runState State.empty
        (List.replicate 3 wrongAttempt ++ [rightAttempt] ++ [wrongAttempt])).controller.get
        "a@x.com" = Read.own (Stored.number 1) ∧
    (runState State.empty
        (List.replicate 3 wrongAttempt ++ [rightAttempt] ++ [wrongAttempt])).service.get
        "a@x.com" = Read.own (Stored.number 1) ∧
    runResponses (runState State.empty (List.replicate 3 wrongAttempt ++ [rightAttempt]))
        (List.replicate 5 wrongAttempt) =
      List.replicate 4 (Response.next invalidCredentials) ++
        [Response.next tooManyAttempts]) :=
  ⟨by decide, by decide, by decide, by decide, by decide,
    success_resets_both_counts "a@x.com" (by decide) 3 (by decide)
      (List.replicate 3 wrongAttempt) (by decide)
      (by intro a ha; rw [List.mem_replicate] at ha; rw [ha.2]; decide)
      rightAttempt (by decide) (by decide) wrongAttempt
      (by intro a ha; rw [List.mem_singleton] at ha; rw [ha]; decide)
      (List.replicate 5 wrongAttempt) (by decide) allFail_sample⟩

/-- C8. When the store lookup is rejected with an error, `login` leaves both
objects as they were and never calls `passwordMatched`; the lookup is made
exactly when the controller's gate is open, and then that very error is what
`login` passes to `next`. -/
theorem lookup_error_is_passed_on (c : Collaborators) (st : State) (email password : String)
    (e : Thrown) (hlookup : c.getUserByEmail email = Except.error e) :
    (login c st email password).state = st ∧
    comparisons (login c st email password).calls = 0 ∧
    (Call.getUserByEmail email ∈ (login c st email password).calls ↔
      geFive (st.controller.get email) = false) ∧
    (Call.getUserByEmail email ∈ (login c st email password).calls →
      (login c st email password).response = Response.next e) := by
  cases hgate : geFive (st.controller.get email) with
  | true =>
    rw [login_of_blocked c st email password hgate]
    simp [comparisons]
  | false =>
    rw [login_of_fault c st email password e hgate hlookup]
    simp [comparisons]

/-- C8, at a store that is down, from empty objects. -/
theorem lookup_error_is_passed_on_witness :
    downEnv.getUserByEmail "a@x.com" = Except.error (Thrown.fault "store unavailable") ∧
    ((login downEnv State.empty "a@x.com" "s3cret").state = State.empty ∧
    comparisons (login downEnv State.empty "a@x.com" "s3cret").calls = 0 ∧
    (Call.getUserByEmail "a@x.com" ∈ (login downEnv State.empty "a@x.com" "s3cret").calls ↔
      geFive (State.empty.controller.get "a@x.com") = false) ∧
    (Call.getUserByEmail "a@x.com" ∈ (login downEnv State.empty "a@x.com" "s3cret").calls →
      (login downEnv State.empty "a@x.com" "s3cret").response =
        Response.next (Thrown.fault "store unavailable"))) :=
  ⟨rfl, lookup_error_is_passed_on downEnv State.empty "a@x.com" "s3cret" _ rfl⟩

/-- C9, at the e-mail field `__proto__`, which has no entry in either object:
a failing login is answered with INVALID_CREDENTIALS but creates no entry,
because the write goes to the inherited setter, which ignores it; the key
still reads as `Object.prototype`, not as the count 1. -/
theorem failure_under_proto_creates_no_entry :
    State.empty.controller.own "__proto__" = none ∧
    State.empty.service.own "__proto__" = none ∧
    (login sampleEnv State.empty "__proto__" "x").response =
      Response.next invalidCredentials ∧
    (login sampleEnv State.empty "__proto__" "x").state = State.empty ∧
    (login sampleEnv State.empty "__proto__" "x").state.controller.get "__proto__" =
      Read.inherited "__proto__" ∧
    (login sampleEnv State.empty "__proto__" "x").state.controller.get "__proto__" ≠
      Read.own (Stored.number 1) := by
  decide

/-- C9. For an e-mail whose key reads, in each object, as `undefined`
or as a number below 4, the controller's gate is open, and a login whose
verification fails (no such user, or a false comparison) is answered with
INVALID_CREDENTIALS and leaves the count one higher in both objects; a key
that read as `undefined` then holds the count 1. -/
theorem failure_below_threshold_counts_once (c : Collaborators) (st : State)
    (email password : String) (user : Option User)
    (hlookup : c.getUserByEmail email = Except.ok user)
    (hfails : user = none ∨ ∃ u, user = some u ∧ c.passwordMatched password u.password = false)
    (n s : Nat)
    (hc : st.controller.hasCount email n) (hcn : n < 4)
    (hs : st.service.hasCount email s) (hsn : s < 4) :
    geFive (st.controller.get email) = false ∧
    (login c st email password).response = Response.next invalidCredentials ∧
    (login c st email password).state.controller.get email =
      Read.own (Stored.number (n + 1)) ∧
    (login c st email password).state.service.get email =
      Read.own (Stored.number (s + 1)) ∧
    (st.controller.get email = Read.undefined →
      (login c st email password).state.controller.get email = Read.own (Stored.number 1)) ∧
    (st.service.get email = Read.undefined →
      (login c st email password).state.service.get email = Read.own (Stored.number 1)) := by
  have hgate : geFive (st.controller.get email) = false :=
    gate_open_of_count _ _ n hc (by omega)
  have hmis : ∀ u, user = some u → c.passwordMatched password u.password = false := by
    intro u hu
    rcases hfails with hnone | ⟨v, hv, hm⟩
    · rw [hnone] at hu
      cases hu
    · rw [hv] at hu
      cases hu
      exact hm
  have hsread := st.service.hasCount_set email s hs
  have hcread := st.controller.hasCount_set email n hc
  have hback : geFive ((st.service.set email
      (orZeroPlusOne (st.service.get email))).get email) = false := by
    rw [hsread]
    simp [geFive]
    omega
  rw [login_of_mismatch_open c st email password user hgate hlookup hmis hback]
  refine ⟨hgate, rfl, hcread, hsread, ?_, ?_⟩
  · intro hnone
    have h0 : n = 0 := st.controller.hasCount_unique email n 0 hc (Or.inr ⟨hnone, rfl⟩)
    subst h0
    exact hcread
  · intro hnone
    have h0 : s = 0 := st.service.hasCount_unique email s 0 hs (Or.inr ⟨hnone, rfl⟩)
    subst h0
    exact hsread

/-- C9, at the sample store: a wrong password for `a@x.com` after two recorded
failures. -/
theorem failure_below_threshold_counts_once_witness :
    twoFailures.controller.hasCount "a@x.com" 2 ∧ twoFailures.service.hasCount "a@x.com" 2 ∧
    (geFive (twoFailures.controller.get "a@x.com") = false ∧
    (login sampleEnv twoFailures "a@x.com" "wrong").response =
      Response.next invalidCredentials ∧
    (login sampleEnv twoFailures "a@x.com" "wrong").state.controller.get "a@x.com" =
      Read.own (Stored.number (2 + 1)) ∧
    (login sampleEnv twoFailures "a@x.com" "wrong").state.service.get "a@x.com" =
      Read.own (Stored.number (2 + 1)) ∧
    (twoFailures.controller.get "a@x.com" = Read.undefined →
      (login sampleEnv twoFailures "a@x.com" "wrong").state.controller.get "a@x.com" =
        Read.own (Stored.number 1)) ∧
    (twoFailures.service.get "a@x.com" = Read.undefined →
      (login sampleEnv twoFailures "a@x.com" "wrong").state.service.get "a@x.com" =
        Read.own (Stored.number 1))) :=
  ⟨Or.inl (by decide), Or.inl (by decide),
    failure_below_threshold_counts_once sampleEnv twoFailures "a@x.com" "wrong"
      (some { id := "1", name := "A", email := "a@x.com", password := "s3cret" })
      (by simp [sampleEnv])
      (Or.inr ⟨_, rfl, by decide⟩) 2 2 (Or.inl (by decide)) (by decide)
      (Or.inl (by decide)) (by decide)⟩

/-- C10. In every state in which the controller's entry for the e-mail is 5 or
more, `login` passes the FORBIDDEN error to `next`, makes no call at all (not
to `checkLoginCredentials`, hence not to the store or to `passwordMatched`),
and leaves both objects unchanged. -/
theorem blocked_exit (c : Collaborators) (st : State) (email password : String) (n : Nat)
    (hentry : st.controller.get email = Read.own (Stored.number n)) (hn : 5 ≤ n) :
    (login c st email password).response = Response.next tooManyAttempts ∧
    (login c st email password).calls = [] ∧
    (login c st email password).state = st := by
  have hgate : geFive (st.controller.get email) = true :=
    (geFive_eq_true_iff _).mpr ⟨n, hentry, hn⟩
  rw [login_of_blocked c st email password hgate]
  exact ⟨rfl, rfl, rfl⟩

/-- C10, at a state whose controller entry for `a@x.com` is 5, with the right
password. -/
theorem blocked_exit_witness :
    gateShut.controller.get "a@x.com" = Read.own (Stored.number 5) ∧ 5 ≤ 5 ∧
    ((login sampleEnv gateShut "a@x.com" "s3cret").response = Response.next tooManyAttempts ∧
    (login sampleEnv gateShut "a@x.com" "s3cret").calls = [] ∧
    (login sampleEnv gateShut "a@x.com" "s3cret").state = gateShut) :=
  ⟨by decide, by decide,
    blocked_exit sampleEnv gateShut "a@x.com" "s3cret" 5 (by decide) (by decide)⟩

/-- C11. Two user records with the same e-mail, name and id, whatever their
stored passwords: when `checkLoginCredentials` succeeds on each, the two
payloads are equal, and the payload consists of the record's e-mail, name and
id and of `generateToken(user.email, user.id)`; the payload type has no other
field. -/
theorem payload_ignores_stored_password (c₁ c₂ : Collaborators) (m₁ m₂ : AttemptMap)
    (email password : String) (u₁ u₂ : User)
    (hlookup₁ : c₁.getUserByEmail email = Except.ok (some u₁))
    (hlookup₂ : c₂.getUserByEmail email = Except.ok (some u₂))
    (htoken : c₁.generateToken = c₂.generateToken)
    (hemail : u₁.email = u₂.email) (hname : u₁.name = u₂.name) (hid : u₁.id = u₂.id)
    (p₁ p₂ : LoginPayload)
    (h₁ : (checkLoginCredentials c₁ m₁ email password).result = Except.ok (some p₁))
    (h₂ : (checkLoginCredentials c₂ m₂ email password).result = Except.ok (some p₂)) :
    p₁ = p₂ ∧
    p₁ = { email := u₁.email, name := u₁.name, user_id := u₁.id,
           token := c₁.generateToken u₁.email u₁.id } := by
  have e₁ := payload_of_success c₁ m₁ email password u₁ p₁ hlookup₁ h₁
  have e₂ := payload_of_success c₂ m₂ email password u₂ p₂ hlookup₂ h₂
  refine ⟨?_, e₁⟩
  rw [e₁, e₂, htoken, hemail, hname, hid]

/-- C11, at two stores that hold `a@x.com` with the hashes `x-s3cret` and
`y-s3cret`, for the submitted password `s3cret`. -/
theorem payload_ignores_stored_password_witness :
    ("x-s3cret" : String) ≠ "y-s3cret" ∧
    (checkLoginCredentials (saltedEnv "x-s3cret") [] "a@x.com" "s3cret").result =
      Except.ok (some
        { email := "a@x.com", name := "A", user_id := "1", token := "a@x.com:1" }) ∧
    (checkLoginCredentials (saltedEnv "y-s3cret") [] "a@x.com" "s3cret").result =
      Except.ok (some
        { email := "a@x.com", name := "A", user_id := "1", token := "a@x.com:1" }) ∧
    ((⟨"a@x.com", "A", "1", "a@x.com:1"⟩ : LoginPayload) = ⟨"a@x.com", "A", "1", "a@x.com:1"⟩ ∧
      (⟨"a@x.com", "A", "1", "a@x.com:1"⟩ : LoginPayload) =
        { email := "a@x.com", name := "A", user_id := "1",
          token := (saltedEnv "x-s3cret").generateToken "a@x.com" "1" }) :=
  ⟨by decide, rfl, rfl,
    payload_ignores_stored_password (saltedEnv "x-s3cret") (saltedEnv "y-s3cret") [] []
      "a@x.com" "s3cret"
      { id := "1", name := "A", email := "a@x.com", password := "x-s3cret" }
      { id := "1", name := "A", email := "a@x.com", password := "y-s3cret" }
      (by simp [saltedEnv]) (by simp [saltedEnv]) rfl rfl rfl rfl _ _ rfl rfl⟩

/-- C12, at the e-mail field `constructor`: from empty objects, where the key
has no entry, a failing login leaves a string under the key; from the same
objects with the key mapped to 0 it leaves the count 1.  The responses are
the same, the resulting entries are not. -/
theorem absent_differs_from_zero_under_inherited_name :
    State.empty.controller.own "constructor" = none ∧
    State.empty.service.own "constructor" = none ∧
    namedZero.controller = State.empty.controller.set "constructor" (Stored.number 0) ∧
    namedZero.service = State.empty.service.set "constructor" (Stored.number 0) ∧
    (login namedEnv State.empty "constructor" "wrong").state.controller.get "constructor" =
      Read.own (Stored.text "constructor" 1) ∧
    (login namedEnv namedZero "constructor" "wrong").state.controller.get "constructor" =
      Read.own (Stored.number 1) ∧
    ¬ sameCounts (login namedEnv namedZero "constructor" "wrong").state
      (login namedEnv State.empty "constructor" "wrong").state := by
  refine ⟨by decide, by decide, by decide, by decide, by decide, by decide, ?_⟩
  intro h
  have hkey := (h "constructor").1
  have h1 : (login namedEnv namedZero "constructor" "wrong").state.controller.get
      "constructor" = Read.own (Stored.number 1) := by decide
  have h2 : (login namedEnv State.empty "constructor" "wrong").state.controller.get
      "constructor" = Read.own (Stored.text "constructor" 1) := by decide
  rw [h1, h2] at hkey
  revert hkey
  unfold Read.agrees
  decide

/-- C12. A state in which the key of the e-mail reads as `undefined`
in both objects, and the same state with the e-mail mapped to 0 in the
controller's object, in the service's object or in both: `login` gives the
same response and makes the same calls from both, and afterwards every e-mail
has the same failure count in both objects: the reads are equal, or each is
`undefined` or zero. -/
theorem absent_is_zero (c : Collaborators) (st zeroed : State) (email password : String)
    (hc : st.controller.get email = Read.undefined)
    (hs : st.service.get email = Read.undefined)
    (hzc : zeroed.controller = st.controller ∨
      zeroed.controller = st.controller.set email (Stored.number 0))
    (hzs : zeroed.service = st.service ∨
      zeroed.service = st.service.set email (Stored.number 0)) :
    (login c zeroed email password).response = (login c st email password).response ∧
    (login c zeroed email password).calls = (login c st email password).calls ∧
    sameCounts (login c zeroed email password).state (login c st email password).state := by
  have hsame : sameCounts zeroed st := by
    intro key
    constructor
    · rcases hzc with h | h
      · rw [h]
        exact Or.inl rfl
      · rw [h]
        by_cases hkey : email = key
        · subst hkey
          rw [AttemptMap.get_set_self _ _ _ (by rw [hc]; simp), hc]
          exact Or.inr ⟨rfl, rfl⟩
        · rw [AttemptMap.get_set_other _ email key _ hkey]
          exact Or.inl rfl
    · rcases hzs with h | h
      · rw [h]
        exact Or.inl rfl
      · rw [h]
        by_cases hkey : email = key
        · subst hkey
          rw [AttemptMap.get_set_self _ _ _ (by rw [hs]; simp), hs]
          exact Or.inr ⟨rfl, rfl⟩
        · rw [AttemptMap.get_set_other _ email key _ hkey]
          exact Or.inl rfl
  exact login_respects_counts c zeroed st email password hsame

/-- C12, at the sample store: `a@x.com` absent, and mapped to 0 in both
objects, with a wrong password. -/
theorem absent_is_zero_witness :
    otherOnly.controller.get "a@x.com" = Read.undefined ∧
    otherOnly.service.get "a@x.com" = Read.undefined ∧
    otherAndZero.controller = otherOnly.controller.set "a@x.com" (Stored.number 0) ∧
    otherAndZero.service = otherOnly.service.set "a@x.com" (Stored.number 0) ∧
    ((login sampleEnv otherAndZero "a@x.com" "wrong").response =
        (login sampleEnv otherOnly "a@x.com" "wrong").response ∧
    (login sampleEnv otherAndZero "a@x.com" "wrong").calls =
        (login sampleEnv otherOnly "a@x.com" "wrong").calls ∧
    sameCounts (login sampleEnv otherAndZero "a@x.com" "wrong").state
      (login sampleEnv otherOnly "a@x.com" "wrong").state) :=
  ⟨by decide, by decide, by decide, by decide,
    absent_is_zero sampleEnv otherOnly otherAndZero "a@x.com" "wrong" (by decide) (by decide)
      (Or.inr (by decide)) (Or.inr (by decide))⟩

/-- C13, at the e-mail field `constructor`: two failing logins in flight
together from empty objects, resumed in turn until both have their response,
leave a string under the key in both objects, not the count 2. -/
theorem concurrent_failures_under_inherited_name :
    [namedWrong, namedWrong].length < 5 ∧ namedWrong.fails = true ∧
    (runSchedule [0, 1, 0, 1, 0, 1, 0, 1] State.empty
        (inFlight [namedWrong, namedWrong])).2.all Task.isFinished = true ∧
    (runSchedule [0, 1, 0, 1, 0, 1, 0, 1] State.empty
        (inFlight [namedWrong, namedWrong])).1.controller.get "constructor" =
      Read.own (Stored.text "constructor" 2) ∧
    (runSchedule [0, 1, 0, 1, 0, 1, 0, 1] State.empty
        (inFlight [namedWrong, namedWrong])).1.service.get "constructor" =
      Read.own (Stored.text "constructor" 2) ∧
    (runSchedule [0, 1, 0, 1, 0, 1, 0, 1] State.empty
        (inFlight [namedWrong, namedWrong])).1.controller.get "constructor" ≠
      Read.own (Stored.number 2) := by
  decide

/-- C13. Fewer than five failing logins for one e-mail that is not a
name inherited from `Object.prototype`, started from empty objects and in
flight together, their blocks between two `await`s interleaved by any
schedule.  A schedule that resumes every request at least four times brings
every request to its response; and once every request has its response, the
failure count of the e-mail is the number of requests, in the controller's
object and in the service's, and every response is INVALID_CREDENTIALS. -/
theorem concurrent_failures_all_counted (email : String) (hname : email ∉ inheritedNames)
    (requests : List Attempt)
    (hfew : requests.length < 5) (hall : allFail email requests) (schedule : List Nat) :
    ((∀ i, i < requests.length → 4 ≤ schedule.count i) →
      (runSchedule schedule State.empty (inFlight requests)).2.all Task.isFinished = true) ∧
    ((runSchedule schedule State.empty (inFlight requests)).2.all Task.isFinished = true →
      (runSchedule schedule State.empty (inFlight requests)).1.controller.hasCount email
        requests.length ∧
      (runSchedule schedule State.empty (inFlight requests)).1.service.hasCount email
        requests.length ∧
      ∀ t ∈ (runSchedule schedule State.empty (inFlight requests)).2,
        ∃ response, t.phase = Phase.finished response ∧
          response = Response.next invalidCredentials) := by
  obtain ⟨h0c, h0s⟩ := hasCount_empty email hname
  obtain ⟨i1, i2, i3, i4⟩ := inFlight_sound email requests hall
  obtain ⟨hsound, hs, hc, hlen⟩ := runSchedule_sound email schedule State.empty
    (inFlight requests) i1 (by omega) (i2 ▸ h0s) (i3 ▸ h0c)
  constructor
  · intro hturns
    apply all_finished_of_rank
    intro j hj
    have hj' : j < requests.length := by omega
    have hrank := rankAt_runSchedule schedule State.empty (inFlight requests) j
    have hcount := hturns j hj'
    omega
  · intro hdone
    obtain ⟨fp, fc⟩ := counts_of_all_finished _ hdone
    refine ⟨AttemptMap.hasCount_congr _ _ _ _ hc (by omega),
      AttemptMap.hasCount_congr _ _ _ _ hs (by omega), ?_⟩
    intro t ht
    have hfin : t.isFinished = true := (List.all_eq_true.mp hdone) t ht
    obtain ⟨_, _, hphase⟩ := hsound t ht
    unfold Task.isFinished at hfin
    cases hph : t.phase with
    | finished response =>
      rw [hph] at hphase
      exact ⟨response, rfl, hphase⟩
    | start => simp [hph] at hfin
    | awaitingLookup => simp [hph] at hfin
    | awaitingComparison user => simp [hph] at hfin
    | awaitingService result => simp [hph] at hfin

/-- C13, at the sample store: three logins with a wrong password, resumed in
turn block by block. -/
theorem concurrent_failures_all_counted_witness :
    "a@x.com" ∉ inheritedNames ∧
    (List.replicate 3 wrongAttempt).length < 5 ∧
    (∀ i, i < (List.replicate 3 wrongAttempt).length → 4 ≤ roundRobin.count i) ∧
    (runSchedule roundRobin State.empty (inFlight (List.replicate 3 wrongAttempt))).2.all
      Task.isFinished = true ∧
    (runSchedule roundRobin State.empty
        (inFlight (List.replicate 3 wrongAttempt))).1.controller.get "a@x.com" =
      Read.own (Stored.number 3) ∧
    ((runSchedule roundRobin State.empty
        (inFlight (List.replicate 3 wrongAttempt))).1.controller.hasCount "a@x.com"
      (List.replicate 3 wrongAttempt).length ∧
    (runSchedule roundRobin State.empty
        (inFlight (List.replicate 3 wrongAttempt))).1.service.hasCount "a@x.com"
      (List.replicate 3 wrongAttempt).length ∧
    ∀ t ∈ (runSchedule roundRobin State.empty (inFlight (List.replicate 3 wrongAttempt))).2,
      ∃ response, t.phase = Phase.finished response ∧
        response = Response.next invalidCredentials) :=
  ⟨by decide, by decide, by decide, by decide, by decide,
    (concurrent_failures_all_counted "a@x.com" (by decide) (List.replicate 3 wrongAttempt)
      (by decide)
      (by intro a ha; rw [List.mem_replicate] at ha; rw [ha.2]; decide)
      roundRobin).2
      ((concurrent_failures_all_counted "a@x.com" (by decide) (List.replicate 3 wrongAttempt)
        (by decide)
        (by intro a ha; rw [List.mem_replicate] at ha; rw [ha.2]; decide)
        roundRobin).1 (by decide))⟩

/-- C14, at the e-mail field `constructor`: after one failing login from empty
objects the controller's entry is a string; the object records no count for
the key, so there is no count that is at most 4. -/
theorem controller_entry_under_inherited_name :
    (runEvents State.empty [Event.login namedWrong]).controller.get "constructor" =
      Read.own (Stored.text "constructor" 1) ∧
    ¬ ∃ n, (runEvents State.empty [Event.login namedWrong]).controller.hasCount
      "constructor" n := by
  have hread : (runEvents State.empty [Event.login namedWrong]).controller.get
      "constructor" = Read.own (Stored.text "constructor" 1) := by decide
  refine ⟨hread, ?_⟩
  rintro ⟨n, hn | ⟨hn, _⟩⟩
  · rw [hread] at hn
    simp at hn
  · rw [hread] at hn
    simp at hn

/-- C14. In every state reached from empty objects by requests served
one after the other and timer runs, in any order: for every e-mail that is
not a name inherited from `Object.prototype`, both objects record a count
(absent read as zero), the controller's is at most 4 and is the service's
capped at 4; and for every e-mail whatever, the controller's gate is open,
and whenever `login` answers with the FORBIDDEN error,
`checkLoginCredentials` was called and threw it. -/
theorem controller_count_capped_at_four (events : List Event) (email : String) :
    (email ∉ inheritedNames →
      ∃ n s, (runEvents State.empty events).controller.hasCount email n ∧
        (runEvents State.empty events).service.hasCount email s ∧
        n ≤ 4 ∧ n = min s 4) ∧
    geFive ((runEvents State.empty events).controller.get email) = false ∧
    ∀ (c : Collaborators) (password : String),
      (login c (runEvents State.empty events) email password).response =
          Response.next tooManyAttempts →
        Call.checkLoginCredentials email password ∈
            (login c (runEvents State.empty events) email password).calls ∧
          (checkLoginCredentials c (runEvents State.empty events).service email
            password).result = Except.error tooManyAttempts := by
  obtain ⟨hord, hinh⟩ := capped_runEvents events State.empty capped_empty email
  have hgate : geFive ((runEvents State.empty events).controller.get email) = false := by
    by_cases hname : email ∈ inheritedNames
    · have hnum := hinh hname
      cases hget : (runEvents State.empty events).controller.get email with
      | undefined => rfl
      | inherited name => rfl
      | own value =>
        cases value with
        | number n => simp [hget, Read.isNumber] at hnum
        | text name ones => rfl
    · obtain ⟨n, s, hn, _, hmin⟩ := hord hname
      exact gate_open_of_count _ _ n hn (by omega)
  refine ⟨?_, hgate, ?_⟩
  · intro hname
    obtain ⟨n, s, hn, hs, hmin⟩ := hord hname
    exact ⟨n, s, hn, hs, by omega, hmin⟩
  · intro c password hresp
    unfold login at hresp ⊢
    simp only [hgate] at hresp ⊢
    cases hres : (checkLoginCredentials c (runEvents State.empty events).service email
        password).result with
    | error e =>
      simp only [hres] at hresp ⊢
      simp at hresp
      simp [hresp]
    | ok value =>
      cases value with
      | none =>
        simp only [hres] at hresp
        simp [tooManyAttempts, invalidCredentials] at hresp
      | some payload =>
        simp only [hres] at hresp
        simp at hresp

/-- C14, at five failures for `a@x.com`, a sweep, a failure for `b@x.com` and
two more failures for `a@x.com`: the controller's count is 4 and the
service's is 7. -/
theorem controller_count_capped_at_four_witness :
    "a@x.com" ∉ inheritedNames ∧
    (runEvents State.empty sampleEvents).controller.get "a@x.com" =
      Read.own (Stored.number 4) ∧
    (runEvents State.empty sampleEvents).service.get "a@x.com" =
      Read.own (Stored.number 7) ∧
    (∃ n s, (runEvents State.empty sampleEvents).controller.hasCount "a@x.com" n ∧
        (runEvents State.empty sampleEvents).service.hasCount "a@x.com" s ∧
        n ≤ 4 ∧ n = min s 4) ∧
    (login sampleEnv (runEvents State.empty sampleEvents) "a@x.com" "wrong").response =
      Response.next tooManyAttempts ∧
    (Call.checkLoginCredentials "a@x.com" "wrong" ∈
        (login sampleEnv (runEvents State.empty sampleEvents) "a@x.com" "wrong").calls ∧
      (checkLoginCredentials sampleEnv (runEvents State.empty sampleEvents).service "a@x.com"
        "wrong").result = Except.error tooManyAttempts) :=
  ⟨by decide, by decide, by decide,
    (controller_count_capped_at_four sampleEvents "a@x.com").1 (by decide), by decide,
    (controller_count_capped_at_four sampleEvents "a@x.com").2.2 sampleEnv "wrong"
      (by decide)⟩

/-- C15. A login for one e-mail, whatever its outcome, leaves the entry of
every other e-mail as it was, in the controller's object and in the
service's. -/
theorem other_emails_untouched (c : Collaborators) (st : State)
    (email password other : String) (hother : other ≠ email) :
    (login c st email password).state.controller.get other = st.controller.get other ∧
    (login c st email password).state.service.get other = st.service.get other :=
  login_frame c st email password other (fun h => hother h.symm)

/-- C15, at the sample store: a wrong password for `a@x.com` in a state that
holds an entry for `b@x.com`. -/
theorem other_emails_untouched_witness :
    ("b@x.com" : String) ≠ "a@x.com" ∧
    ((login sampleEnv otherOnly "a@x.com" "wrong").state.controller.get "b@x.com" =
        otherOnly.controller.get "b@x.com" ∧
    (login sampleEnv otherOnly "a@x.com" "wrong").state.service.get "b@x.com" =
        otherOnly.service.get "b@x.com") :=
  ⟨by decide, other_emails_untouched sampleEnv otherOnly "a@x.com" "wrong" "b@x.com"
    (by decide)⟩

end Auth
